import Mathlib

/-!
Verification of the dygraphs synchronization plugin
(src/frontend/src/components/general/Chart/DyPlugins/synchronize.js).

The file shallowly embeds the plugin: charts are records of the option slots
the plugin reads and writes, JS callback values are identity tokens, and each
installed handler is a Lean function that also returns the list of chart
operations it performed (updates, selections, invocations of the vaulted
callbacks), so that propagation counts and pass-through behaviour can be
stated.  Re-entrancy (updateOptions on a chart synchronously re-invoking the
installed drawCallback of that chart) is modelled with a fuel parameter: the
nested invocation is a genuine recursive call of the handler, and the shared
`block` flag is threaded through exactly as in the source.
-/

set_option maxHeartbeats 1000000

namespace DySync

/-- Identity tokens for JS function values stored in callback slots.  A
`user n` token is a callback that was configured before synchronization;
the `sync*` tokens are the closures installed by `attachZoomHandlers` and
`attachSelectionHandlers` (one per chart position).  Restoration is compared
by identity of these tokens. -/
inductive HookVal
  | user (n : Nat)
  | syncDraw (i : Nat)
  | syncHighlight (i : Nat)
  | syncUnhighlight (i : Nat)
deriving DecidableEq

/-- A Dygraph chart, restricted to the state the plugin touches: the three
callback option slots, the configured dateWindow / valueRange options, the
current axis ranges (xAxisRange / yAxisRange), the x-to-row mapping used by
getRowForX, and the current selection. -/
structure Chart where
  id : Nat
  drawCallback : Option HookVal := none
  highlightCallback : Option HookVal := none
  unhighlightCallback : Option HookVal := none
  dateWindow : Option (List Int) := none
  valueRange : Option (List Int) := none
  xRange : List Int := []
  yRange : List Int := []
  rowMap : List (Int × Nat) := []
  selection : Option (Nat × String) := none
deriving DecidableEq

/-- getRowForX: maps an x-domain value to a row index of this chart, or null. -/
def Chart.getRowForX (c : Chart) (x : Int) : Option Nat :=
  c.rowMap.lookup x

/-- The options record of the plugin; `selection`, `zoom` and `range` all
default to true (lines 55-59 of the source). -/
structure SyncOpts where
  selection : Bool := true
  zoom : Bool := true
  range : Bool := true
deriving DecidableEq

/-- One entry of `prevCallbacks`: the vaulted values of the three callback
slots of one chart, captured when the last chart becomes ready.  An absent
callback is stored as `none`. -/
structure PrevCbs where
  drawCallback : Option HookVal := none
  highlightCallback : Option HookVal := none
  unhighlightCallback : Option HookVal := none
deriving DecidableEq

/-- arraysAreEqual (lines 159-167): false unless both values are arrays, then
length check plus element-wise strict equality, which on integer arrays is
exactly list equality.  `none` stands for a non-array value (undefined or
null). -/
def arraysAreEqual : Option (List Int) → Option (List Int) → Bool
  | some a, some b => a == b
  | _, _ => false

/-- The option patch built by the zoom drawCallback (lines 177-180):
`dateWindow` is always present, `valueRange` only when the range option is
set. -/
structure ZoomPatch where
  dateWindow : List Int
  valueRange : Option (List Int)
deriving DecidableEq

/-- The patch computed from the triggering chart `me`: its current x-range,
and its current y-range when `syncOpts.range` holds. -/
def mkPatch (so : SyncOpts) (me : Chart) : ZoomPatch :=
  { dateWindow := me.xRange
    valueRange := if so.range then some me.yRange else none }

/-- The skip test of lines 191-194: both configured options already equal the
patch, compared with arraysAreEqual. -/
def skipB (patch : ZoomPatch) (c : Chart) : Bool :=
  arraysAreEqual (some patch.dateWindow) c.dateWindow &&
    arraysAreEqual patch.valueRange c.valueRange

/-- Effect of `updateOptions(opts)` for a zoom patch: the present keys are
written and the redraw realizes them in the axis ranges; a key absent from
the patch leaves both the option and the corresponding axis range alone. -/
def applyZoomPatch (c : Chart) (p : ZoomPatch) : Chart :=
  let c1 := { c with dateWindow := some p.dateWindow, xRange := p.dateWindow }
  match p.valueRange with
  | some vr => { c1 with valueRange := some vr, yRange := vr }
  | none => c1

/-- Chart operations performed by the installed handlers, in execution
order. -/
inductive Ev
  | updateOpts (chartId : Nat) (p : ZoomPatch)
  | invokePrevDraw (chartId : Nat) (hook : HookVal) (meId : Nat)
  | invokePrevHighlight (chartId : Nat) (hook : HookVal) (x : Int) (row : Nat) (series : String)
  | invokePrevUnhighlight (chartId : Nat) (hook : HookVal)
  | setSel (chartId : Nat) (row : Nat) (series : String)
  | clearSel (chartId : Nat)
deriving DecidableEq

/-- The id of the chart updated by an updateOptions event, if any. -/
def updEvId : Ev → Option Nat
  | .updateOpts i _ => some i
  | _ => none

/-- The propagation loop of the zoom drawCallback (lines 182-197), over the
positions `js` of the group.  `nested` is the handler invocation triggered
synchronously when `updateOptions` redraws a chart; the shared `block` flag
is threaded through it exactly as the closure captures it. -/
def zoomLoopHO (prev : List PrevCbs) (me : Chart) (patch : ZoomPatch)
    (nested : List Chart → Bool → Chart → Option (List Chart × Bool × List Ev)) :
    List Nat → List Chart → Bool → Option (List Chart × Bool × List Ev)
  | [], gs, block => some (gs, block, [])
  | j :: js, gs, block =>
    match gs[j]? with
    | none => zoomLoopHO prev me patch nested js gs block
    | some cj =>
      if cj.id == me.id then
        match (prev[j]?).bind (fun p => p.drawCallback) with
        | some h =>
          match zoomLoopHO prev me patch nested js gs block with
          | none => none
          | some (gs2, b2, tr) => some (gs2, b2, Ev.invokePrevDraw cj.id h me.id :: tr)
        | none => zoomLoopHO prev me patch nested js gs block
      else if skipB patch cj then
        zoomLoopHO prev me patch nested js gs block
      else
        let cj2 := applyZoomPatch cj patch
        let gs2 := gs.set j cj2
        match nested gs2 block cj2 with
        | none => none
        | some (gs3, b3, trN) =>
          match zoomLoopHO prev me patch nested js gs3 b3 with
          | none => none
          | some (gs4, b4, trR) =>
            some (gs4, b4, Ev.updateOpts cj.id patch :: (trN ++ trR))

/-- One invocation of the drawCallback installed by attachZoomHandlers
(lines 174-199) on the group `gs`, fired by chart `me` with the given
initial flag while the shared guard is `block`.  The fuel bounds the depth
of synchronous re-entrant invocations; `none` means the fuel ran out (never
the case in the actual executions, where every nested invocation returns at
the `block` test).  Returns the group, the guard and the operation trace. -/
def zoomDraw (so : SyncOpts) (prev : List PrevCbs) :
    Nat → List Chart → Bool → Chart → Bool → Option (List Chart × Bool × List Ev)
  | 0, _, _, _, _ => none
  | fuel + 1, gs, block, me, initial =>
    if block || initial then some (gs, block, [])
    else
      let patch := mkPatch so me
      match zoomLoopHO prev me patch
          (fun gs2 b2 c2 => zoomDraw so prev fuel gs2 b2 c2 false)
          (List.range gs.length) gs true with
      | none => none
      | some (gs2, _, tr) => some (gs2, false, tr)

/-- Reference form of the zoom propagation loop in the executions that
actually occur: every nested invocation enters with the guard set and
returns at once.  Used to state and prove facts about `zoomDraw`. -/
def zoomLoopPure (prev : List PrevCbs) (me : Chart) (patch : ZoomPatch) :
    List Nat → List Chart → List Chart × List Ev
  | [], gs => (gs, [])
  | j :: js, gs =>
    match gs[j]? with
    | none => zoomLoopPure prev me patch js gs
    | some cj =>
      if cj.id == me.id then
        match (prev[j]?).bind (fun p => p.drawCallback) with
        | some h =>
          let r := zoomLoopPure prev me patch js gs
          (r.1, Ev.invokePrevDraw cj.id h me.id :: r.2)
        | none => zoomLoopPure prev me patch js gs
      else if skipB patch cj then
        zoomLoopPure prev me patch js gs
      else
        let gs2 := gs.set j (applyZoomPatch cj patch)
        let r := zoomLoopPure prev me patch js gs2
        (r.1, Ev.updateOpts cj.id patch :: r.2)

/-- Pointwise effect of one iteration of the zoom loop on the chart it
visits. -/
def stepZoom (me : Chart) (patch : ZoomPatch) (c : Chart) : Chart :=
  if c.id == me.id then c
  else if skipB patch c then c
  else applyZoomPatch c patch

/-- The propagation loop of the highlightCallback installed by
attachSelectionHandlers (lines 210-227): for the firing chart invoke its
vaulted highlight hook with the original arguments, for every other chart
map x to a local row and select it when the mapping succeeds. -/
def selHighlightLoop (prev : List PrevCbs) (me : Chart) (x : Int) (row : Nat)
    (series : String) : List Nat → List Chart → List Chart × List Ev
  | [], gs => (gs, [])
  | j :: js, gs =>
    match gs[j]? with
    | none => selHighlightLoop prev me x row series js gs
    | some cj =>
      if cj.id == me.id then
        match (prev[j]?).bind (fun p => p.highlightCallback) with
        | some h =>
          let r := selHighlightLoop prev me x row series js gs
          (r.1, Ev.invokePrevHighlight cj.id h x row series :: r.2)
        | none => selHighlightLoop prev me x row series js gs
      else
        match cj.getRowForX x with
        | some idx =>
          let gs2 := gs.set j { cj with selection := some (idx, series) }
          let r := selHighlightLoop prev me x row series js gs2
          (r.1, Ev.setSel cj.id idx series :: r.2)
        | none => selHighlightLoop prev me x row series js gs

/-- One invocation of the installed highlightCallback: blocked invocations
return at once, otherwise the guard is set, the loop runs and the guard is
cleared before returning. -/
def highlightCb (prev : List PrevCbs) (gs : List Chart) (block : Bool)
    (me : Chart) (x : Int) (row : Nat) (series : String) :
    List Chart × Bool × List Ev :=
  if block then (gs, block, [])
  else
    let r := selHighlightLoop prev me x row series (List.range gs.length) gs
    (r.1, false, r.2)

/-- Pointwise effect of the highlight loop on a visited chart. -/
def stepSel (me : Chart) (x : Int) (series : String) (c : Chart) : Chart :=
  if c.id == me.id then c
  else
    match c.getRowForX x with
    | some idx => { c with selection := some (idx, series) }
    | none => c

/-- The loop of the installed unhighlightCallback (lines 228-242): clear the
selection of every other chart, invoke the vaulted unhighlight hook of the
firing chart. -/
def selUnhighlightLoop (prev : List PrevCbs) (me : Chart) :
    List Nat → List Chart → List Chart × List Ev
  | [], gs => (gs, [])
  | j :: js, gs =>
    match gs[j]? with
    | none => selUnhighlightLoop prev me js gs
    | some cj =>
      if cj.id == me.id then
        match (prev[j]?).bind (fun p => p.unhighlightCallback) with
        | some h =>
          let r := selUnhighlightLoop prev me js gs
          (r.1, Ev.invokePrevUnhighlight cj.id h :: r.2)
        | none => selUnhighlightLoop prev me js gs
      else
        let gs2 := gs.set j { cj with selection := none }
        let r := selUnhighlightLoop prev me js gs2
        (r.1, Ev.clearSel cj.id :: r.2)

/-- One invocation of the installed unhighlightCallback. -/
def unhighlightCb (prev : List PrevCbs) (gs : List Chart) (block : Bool)
    (me : Chart) : List Chart × Bool × List Ev :=
  if block then (gs, block, [])
  else
    let r := selUnhighlightLoop prev me (List.range gs.length) gs
    (r.1, false, r.2)

/-- List map with the position passed to the function, mirroring the indexed
installation loops of the source. -/
def mapWithIndex (f : Nat → Chart → Chart) : Nat → List Chart → List Chart
  | _, [] => []
  | i, c :: cs => f i c :: mapWithIndex f (i + 1) cs

/-- attachZoomHandlers (lines 169-202): install the synchronized drawCallback
closure on every chart, without redraw. -/
def attachZoomHandlers (gs : List Chart) : List Chart :=
  mapWithIndex (fun i g => { g with drawCallback := some (.syncDraw i) }) 0 gs

/-- attachSelectionHandlers (lines 204-245): install the synchronized
highlight and unhighlight closures on every chart, without redraw. -/
def attachSelectionHandlers (gs : List Chart) : List Chart :=
  mapWithIndex
    (fun i g =>
      { g with highlightCallback := some (.syncHighlight i)
               unhighlightCallback := some (.syncUnhighlight i) }) 0 gs

/-- Capture of prevCallbacks (lines 114-123): for every chart read the three
callback slots via the option getter; a missing callback is stored as
absent. -/
def captureCallbacks (gs : List Chart) : List PrevCbs :=
  gs.map fun g =>
    { drawCallback := g.drawCallback
      highlightCallback := g.highlightCallback
      unhighlightCallback := g.unhighlightCallback }

/-- The internal state owned by the returned handle: the group, the options
and the snapshot table.  Before the readiness countdown reaches zero,
`prevCallbacks` is the empty array. -/
structure SyncState where
  dygraphs : List Chart
  opts : SyncOpts
  prevCallbacks : List PrevCbs
deriving DecidableEq

/-- Activation, the body run when the readiness countdown reaches zero
(lines 113-133): capture the callbacks, then attach the enabled
protocols. -/
def activate (opts : SyncOpts) (gs : List Chart) : List Chart × List PrevCbs :=
  let prev := captureCallbacks gs
  let gs1 := if opts.zoom then attachZoomHandlers gs else gs
  let gs2 := if opts.selection then attachSelectionHandlers gs1 else gs1
  (gs2, prev)

/-- The handle state of a group whose readiness barrier has released. -/
def activateState (opts : SyncOpts) (gs : List Chart) : SyncState :=
  { dygraphs := (activate opts gs).1
    opts := opts
    prevCallbacks := (activate opts gs).2 }

/-- The write operations performed by detach: one updateOptions call per
enabled protocol per chart. -/
inductive WriteEv
  | setDraw (chartId : Nat) (v : Option HookVal)
  | setHighlightUnhighlight (chartId : Nat) (hv uv : Option HookVal)
deriving DecidableEq

/-- Error raised when detach dereferences a missing prevCallbacks entry
(the snapshot was never captured). -/
def tyUndefErr : String := "TypeError: cannot read properties of undefined"

/-- Error raised when detach runs on released state (dygraphs is null). -/
def tyNullErr : String := "TypeError: cannot read properties of null"

/-- The body of one detach iteration for the chart at position `i`
(lines 139-149): with zoom enabled, write the vaulted drawCallback back; with
selection enabled, write the vaulted highlight and unhighlight callbacks
back.  Dereferencing `prevCallbacks[i]` throws when the entry is absent. -/
def detachChartStep (opts : SyncOpts) (prev : List PrevCbs) (i : Nat)
    (g : Chart) : Except String (Chart × List WriteEv) :=
  let s1 : Except String (Chart × List WriteEv) :=
    if opts.zoom then
      match prev[i]? with
      | none => .error tyUndefErr
      | some p =>
        .ok ({ g with drawCallback := p.drawCallback },
          [WriteEv.setDraw g.id p.drawCallback])
    else .ok (g, [])
  match s1 with
  | .error e => .error e
  | .ok (g1, evs1) =>
    if opts.selection then
      match prev[i]? with
      | none => .error tyUndefErr
      | some p =>
        .ok ({ g1 with highlightCallback := p.highlightCallback,
                       unhighlightCallback := p.unhighlightCallback },
          evs1 ++ [WriteEv.setHighlightUnhighlight g.id p.highlightCallback p.unhighlightCallback])
    else .ok (g1, evs1)

/-- The detach loop over the group positions; an error stops the loop and
leaves the charts updated so far. -/
def detachLoop (opts : SyncOpts) (prev : List PrevCbs) :
    List Nat → List Chart → List Chart × List WriteEv × Option String
  | [], gs => (gs, [], none)
  | i :: is, gs =>
    match gs[i]? with
    | none => detachLoop opts prev is gs
    | some g =>
      match detachChartStep opts prev i g with
      | .error e => (gs, [], some e)
      | .ok (g2, evs) =>
        let r := detachLoop opts prev is (gs.set i g2)
        (r.1, evs ++ r.2.1, r.2.2)

/-- detach (lines 138-155) run against the handle state: restore the vaulted
callbacks of every enabled protocol for every chart, returning the charts,
the writes performed and the error if one was raised. -/
def detachRun (st : SyncState) : List Chart × List WriteEv × Option String :=
  detachLoop st.opts st.prevCallbacks (List.range st.dygraphs.length) st.dygraphs

/-- The detach operation on the handle.  A released handle (internal
references nulled out after a successful detach) fails at `dygraphs.length`;
a successful run nulls the internal state; a raising run leaves it in
place. -/
def detachOp (h : Option SyncState) : Option SyncState × Option String :=
  match h with
  | none => (none, some tyNullErr)
  | some st =>
    let r := detachRun st
    match r.2.2 with
    | some e => (some { st with dygraphs := r.1 }, some e)
    | none => (none, none)

/-- A JavaScript argument of the factory call, restricted to the value shapes
the argument parser distinguishes: a Dygraph instance, an array (the only
sequence-like shape modelled), a plain options object carrying the three
recognized own properties when present, and a non-object primitive. -/
inductive JSArg
  | chart (c : Chart)
  | arr (elems : List JSArg)
  | obj (selection zoom range : Option Bool)
  | prim

/-- instanceof Dygraph. -/
def isChartArg : JSArg → Bool
  | .chart _ => true
  | _ => false

/-- instanceof Object: true for Dygraph instances, arrays and plain objects,
false for primitives. -/
def isObjectLike : JSArg → Bool
  | .prim => false
  | _ => true

/-- Truthiness of the length property, the sequence test of line 88: a
nonempty array. -/
def lengthTruthy : JSArg → Bool
  | .arr es => es.length != 0
  | _ => false

/-- parseOpts (lines 63-72): a non-Object argument throws; otherwise the
recognized own properties overlay the defaults (a Dygraph or an array has
none of them). -/
def parseOpts (defaults : SyncOpts) (a : JSArg) : Except String SyncOpts :=
  if isObjectLike a then
    match a with
    | .obj s z r =>
      .ok { selection := s.getD defaults.selection
            zoom := z.getD defaults.zoom
            range := r.getD defaults.range }
    | _ => .ok defaults
  else .error "Last argument must be either Dygraph or Object."

/-- The charts collected by the positional loop of lines 75-81: the maximal
leading run of Dygraph arguments. -/
def leadingCharts : List JSArg → List JSArg
  | [] => []
  | a :: as => if isChartArg a then a :: leadingCharts as else []

/-- The elements of a sequence-like first argument (line 90); only reached
on an array. -/
def seqElems : JSArg → List JSArg
  | .arr es => es
  | _ => []

/-- The argument validation and collection phase of synchronize
(lines 49-107).  Every throw of the source happens here, before any chart is
touched; the successful result is the collected group together with the
parsed options. -/
def synchronizeParse (args : List JSArg) : Except String (List JSArg × SyncOpts) :=
  match args with
  | [] => .error "Invalid invocation of Dygraph.synchronize(). Need >= 1 argument."
  | a0 :: rest =>
    let r : Except String (List JSArg × SyncOpts) :=
      if isChartArg a0 then
        let dygraphs := leadingCharts (a0 :: rest)
        let i := dygraphs.length
        if i < (a0 :: rest).length - 1 then
          .error "Invalid invocation of Dygraph.synchronize(). All but the last argument must be Dygraph objects."
        else if i == (a0 :: rest).length - 1 then
          match parseOpts {} ((a0 :: rest).getLast (List.cons_ne_nil a0 rest)) with
          | .error e => .error e
          | .ok opts => .ok (dygraphs, opts)
        else .ok (dygraphs, {})
      else if lengthTruthy a0 then
        let dygraphs := seqElems a0
        if (a0 :: rest).length == 2 then
          match parseOpts {} (rest.getD 0 .prim) with
          | .error e => .error e
          | .ok opts => .ok (dygraphs, opts)
        else if (a0 :: rest).length > 2 then
          .error "Invalid invocation of Dygraph.synchronize(). Expected two arguments: array and optional options argument."
        else .ok (dygraphs, {})
      else
        .error "Invalid invocation of Dygraph.synchronize(). First parameter must be either Dygraph or list of Dygraphs."
    match r with
    | .error e => .error e
    | .ok (dygraphs, opts) =>
      if dygraphs.length < 2 then
        .error "Invalid invocation of Dygraph.synchronize(). Need two or more dygraphs to synchronize."
      else .ok (dygraphs, opts)

/-- True when synchronize raises during validation. -/
def parseFailed (args : List JSArg) : Bool :=
  match synchronizeParse args with
  | .error _ => true
  | .ok _ => false

/-- Modelled from the spec: a value with sequence semantics (an array,
empty or not). -/
def isSeqLikeArg : JSArg → Bool
  | .arr _ => true
  | _ => false

/-- Modelled from the spec: the group collected per section 4.1, either the
positional chart arguments or the elements of the sequence-like first
argument. -/
def specGroup (args : List JSArg) : List JSArg :=
  match args with
  | [] => []
  | a0 :: _ =>
    if isChartArg a0 then leadingCharts args
    else seqElems a0

/-- Modelled from the spec: the construction-time failure conditions of
section 4.1 — zero arguments; a non-trailing non-Chart positional argument;
arguments beyond one trailing options object after a sequence; a first
argument that is neither a Chart nor sequence-like; a trailing options
argument that is not object-like; a collected group of size below two. -/
def specInvalidArgument (args : List JSArg) : Bool :=
  match args with
  | [] => true
  | a0 :: rest =>
    if isChartArg a0 then
      let last := (a0 :: rest).getLast (List.cons_ne_nil a0 rest)
      ((a0 :: rest).dropLast.any fun a => !isChartArg a) ||
        (!isChartArg last && !isObjectLike last) ||
        ((specGroup (a0 :: rest)).length < 2)
    else if isSeqLikeArg a0 then
      decide ((a0 :: rest).length > 2) ||
        (decide ((a0 :: rest).length = 2) && !isObjectLike (rest.getD 0 .prim)) ||
        ((specGroup (a0 :: rest)).length < 2)
    else true

/-- The chart carried by a chart argument. -/
def asChart : JSArg → Option Chart
  | .chart c => some c
  | _ => none

/-- The handle state as produced by the factory call itself: a failed
validation produces none, a successful one carries the collected group with
an empty snapshot table — the callbacks are neither read nor replaced until
the readiness barrier releases and `activate` runs. -/
def factoryState (args : List JSArg) : Option SyncState :=
  match synchronizeParse args with
  | .error _ => none
  | .ok (gsArgs, opts) =>
    some { dygraphs := gsArgs.filterMap asChart
           opts := opts
           prevCallbacks := [] }

/-- The per-chart restore applied by a successful detach iteration. -/
def detachApply (opts : SyncOpts) (p : PrevCbs) (g : Chart) : Chart :=
  let g1 := if opts.zoom then { g with drawCallback := p.drawCallback } else g
  if opts.selection then
    { g1 with highlightCallback := p.highlightCallback,
              unhighlightCallback := p.unhighlightCallback }
  else g1

/-- The writes emitted by a successful detach iteration. -/
def detachWrites (opts : SyncOpts) (p : PrevCbs) (g : Chart) : List WriteEv :=
  (if opts.zoom then [WriteEv.setDraw g.id p.drawCallback] else []) ++
    (if opts.selection then
      [WriteEv.setHighlightUnhighlight g.id p.highlightCallback p.unhighlightCallback]
    else [])

/-- Sample chart used to instantiate theorems with hypotheses. -/
def exA : Chart :=
  { id := 0, drawCallback := some (.user 1), highlightCallback := some (.user 2),
    unhighlightCallback := some (.user 3), dateWindow := some [10, 40],
    valueRange := some [0, 5], xRange := [10, 40], yRange := [0, 5],
    rowMap := [(20, 5)] }

/-- Second sample chart. -/
def exB : Chart :=
  { id := 1, xRange := [0, 100], yRange := [0, 9], rowMap := [(20, 3)] }

/-- Third sample chart; its x domain has no row at x = 20. -/
def exC : Chart :=
  { id := 2, xRange := [0, 100], yRange := [0, 9], rowMap := [(30, 7)] }

/-- Sample chart whose configured date window already equals the x-range of
`exA`. -/
def exD : Chart :=
  { id := 1, dateWindow := some [10, 40], xRange := [10, 40] }

theorem zoomDraw_of_block_or_initial (so : SyncOpts) (prev : List PrevCbs)
    (f : Nat) (gs : List Chart) (block : Bool) (me : Chart) (initial : Bool)
    (h : (block || initial) = true) :
    zoomDraw so prev (f + 1) gs block me initial = some (gs, block, []) := by
  simp [zoomDraw, h]

theorem zoomLoopHO_eq_pure (prev : List PrevCbs) (me : Chart) (patch : ZoomPatch)
    (nested : List Chart → Bool → Chart → Option (List Chart × Bool × List Ev))
    (hn : ∀ gs c, nested gs true c = some (gs, true, []))
    (js : List Nat) : ∀ gs : List Chart,
    zoomLoopHO prev me patch nested js gs true =
      some ((zoomLoopPure prev me patch js gs).1, true,
        (zoomLoopPure prev me patch js gs).2) := by
  induction js with
  | nil => intro gs; rfl
  | cons j js ih =>
    intro gs
    simp only [zoomLoopHO, zoomLoopPure]
    cases hgs : gs[j]? with
    | none => simpa [hgs] using ih gs
    | some cj =>
      simp only [hgs]
      by_cases hid : (cj.id == me.id) = true
      · simp only [hid, if_pos]
        cases hpc : (prev[j]?).bind (fun p => p.drawCallback) with
        | none => simpa using ih gs
        | some h => simp [ih gs]
      · simp only [hid]
        by_cases hsk : skipB patch cj = true
        · simp [hsk, ih gs]
        · simp only [hsk, Bool.false_eq_true, if_false, if_neg]
          simp [hn, ih]

theorem zoomDraw_run (so : SyncOpts) (prev : List PrevCbs) (f : Nat)
    (gs : List Chart) (me : Chart) :
    zoomDraw so prev (f + 2) gs false me false =
      some ((zoomLoopPure prev me (mkPatch so me) (List.range gs.length) gs).1,
        false,
        (zoomLoopPure prev me (mkPatch so me) (List.range gs.length) gs).2) := by
  have hn : ∀ (gs2 : List Chart) (c2 : Chart),
      zoomDraw so prev (f + 1) gs2 true c2 false = some (gs2, true, []) := by
    intro gs2 c2
    exact zoomDraw_of_block_or_initial so prev f gs2 true c2 false rfl
  simp only [zoomDraw, Bool.false_or, Bool.or_false, if_false]
  rw [zoomLoopHO_eq_pure prev me (mkPatch so me) _ hn]
  simp

theorem lt_of_getq_some {α : Type} {l : List α} {i : Nat} {a : α}
    (h : l[i]? = some a) : i < l.length := by
  by_contra hc
  push_neg at hc
  rw [List.getElem?_eq_none hc] at h
  exact Option.noConfusion h

theorem zoomLoopPure_charts (prev : List PrevCbs) (me : Chart) (patch : ZoomPatch)
    (js : List Nat) : ∀ gs : List Chart, js.Nodup → ∀ k : Nat,
    (zoomLoopPure prev me patch js gs).1[k]? =
      if k ∈ js then (gs[k]?).map (stepZoom me patch) else gs[k]? := by
  induction js with
  | nil => intro gs _ k; simp [zoomLoopPure]
  | cons j js ih =>
    intro gs hnd k
    have hjn : j ∉ js := (List.nodup_cons.mp hnd).1
    have hnd' : js.Nodup := (List.nodup_cons.mp hnd).2
    simp only [zoomLoopPure]
    cases hgs : gs[j]? with
    | none =>
      rw [ih gs hnd' k]
      by_cases hkj : k = j
      · subst hkj; simp [hjn, hgs]
      · simp [List.mem_cons, hkj]
    | some cj =>
      by_cases hid : (cj.id == me.id) = true
      · simp only [hid, if_pos]
        have hstep : stepZoom me patch cj = cj := by simp [stepZoom, hid]
        cases hpc : (prev[j]?).bind (fun p => p.drawCallback) with
        | none =>
          simp only [hpc]
          rw [ih gs hnd' k]
          by_cases hkj : k = j
          · subst hkj; simp [hjn, hgs, hstep]
          · simp [List.mem_cons, hkj]
        | some h =>
          simp only [hpc]
          rw [ih gs hnd' k]
          by_cases hkj : k = j
          · subst hkj; simp [hjn, hgs, hstep]
          · simp [List.mem_cons, hkj]
      · simp only [hid]
        by_cases hsk : skipB patch cj = true
        · simp only [hsk, if_pos, Bool.false_eq_true, if_false]
          have hstep : stepZoom me patch cj = cj := by simp [stepZoom, hid, hsk]
          rw [ih gs hnd' k]
          by_cases hkj : k = j
          · subst hkj; simp [hjn, hgs, hstep]
          · simp [List.mem_cons, hkj]
        · simp only [hsk, Bool.false_eq_true, if_false]
          have hstep : stepZoom me patch cj = applyZoomPatch cj patch := by
            simp [stepZoom, hid, hsk]
          have hlt : j < gs.length := lt_of_getq_some hgs
          rw [ih (gs.set j (applyZoomPatch cj patch)) hnd' k]
          by_cases hkj : k = j
          · subst hkj
            simp [hjn, hgs, hstep, List.getElem?_set_self hlt]
          · have hset : (gs.set j (applyZoomPatch cj patch))[k]? = gs[k]? :=
              List.getElem?_set_ne (fun hh => hkj hh.symm)
            simp [List.mem_cons, hkj, hset]

theorem zoomLoopPure_trace (prev : List PrevCbs) (me : Chart) (patch : ZoomPatch)
    (js : List Nat) : ∀ gs : List Chart, js.Nodup →
    (zoomLoopPure prev me patch js gs).2 =
      js.filterMap (fun j => (gs[j]?).bind (fun c =>
        if c.id == me.id then
          ((prev[j]?).bind (fun p => p.drawCallback)).map
            (fun h => Ev.invokePrevDraw c.id h me.id)
        else if skipB patch c then none
        else some (Ev.updateOpts c.id patch))) := by
  induction js with
  | nil => intro gs _; simp [zoomLoopPure]
  | cons j js ih =>
    intro gs hnd
    have hjn : j ∉ js := (List.nodup_cons.mp hnd).1
    have hnd' : js.Nodup := (List.nodup_cons.mp hnd).2
    simp only [zoomLoopPure, List.filterMap_cons]
    cases hgs : gs[j]? with
    | none => simp [hgs, ih gs hnd']
    | some cj =>
      by_cases hid : (cj.id == me.id) = true
      · simp only [hgs, hid, Option.some_bind, if_pos]
        cases hpc : (prev[j]?).bind (fun p => p.drawCallback) with
        | none => simp [hpc, ih gs hnd']
        | some h => simp [hpc, ih gs hnd']
      · have hid2 : (cj.id == me.id) = false := by
          rwa [Bool.not_eq_true] at hid
        have hidp : ¬ (cj.id = me.id) := by simpa using hid
        by_cases hsk : skipB patch cj = true
        · simp [hgs, hid2, hidp, hsk, ih gs hnd']
        · have hsk2 : skipB patch cj = false := by
            rwa [Bool.not_eq_true] at hsk
          simp only [hgs, hid2, hsk2, Option.some_bind, Bool.false_eq_true, if_false]
          rw [ih (gs.set j (applyZoomPatch cj patch)) hnd']
          have hcongr : ∀ j2 ∈ js,
              (gs.set j (applyZoomPatch cj patch))[j2]? = gs[j2]? := by
            intro j2 hj2
            refine List.getElem?_set_ne ?_
            intro hh
            exact hjn (by rw [hh]; exact hj2)
          congr 1
          apply List.filterMap_congr
          intro j2 hj2
          rw [hcongr j2 hj2]

theorem selHighlightLoop_charts (prev : List PrevCbs) (me : Chart) (x : Int)
    (row : Nat) (series : String) (js : List Nat) :
    ∀ gs : List Chart, js.Nodup → ∀ k : Nat,
    (selHighlightLoop prev me x row series js gs).1[k]? =
      if k ∈ js then (gs[k]?).map (stepSel me x series) else gs[k]? := by
  induction js with
  | nil => intro gs _ k; simp [selHighlightLoop]
  | cons j js ih =>
    intro gs hnd k
    have hjn : j ∉ js := (List.nodup_cons.mp hnd).1
    have hnd' : js.Nodup := (List.nodup_cons.mp hnd).2
    simp only [selHighlightLoop]
    cases hgs : gs[j]? with
    | none =>
      rw [ih gs hnd' k]
      by_cases hkj : k = j
      · subst hkj; simp [hjn, hgs]
      · simp [List.mem_cons, hkj]
    | some cj =>
      by_cases hid : (cj.id == me.id) = true
      · simp only [hid, if_pos]
        have hstep : stepSel me x series cj = cj := by simp [stepSel, hid]
        cases hpc : (prev[j]?).bind (fun p => p.highlightCallback) with
        | none =>
          simp only [hpc]
          rw [ih gs hnd' k]
          by_cases hkj : k = j
          · subst hkj; simp [hjn, hgs, hstep]
          · simp [List.mem_cons, hkj]
        | some h =>
          simp only [hpc]
          rw [ih gs hnd' k]
          by_cases hkj : k = j
          · subst hkj; simp [hjn, hgs, hstep]
          · simp [List.mem_cons, hkj]
      · have hid2 : (cj.id == me.id) = false := by rwa [Bool.not_eq_true] at hid
        have hidp : ¬ (cj.id = me.id) := by simpa using hid
        simp only [hid2, Bool.false_eq_true, if_false]
        cases hrow : cj.getRowForX x with
        | none =>
          simp only
          have hstep : stepSel me x series cj = cj := by simp [stepSel, hidp, hrow]
          rw [ih gs hnd' k]
          by_cases hkj : k = j
          · subst hkj; simp [hjn, hgs, hstep]
          · simp [List.mem_cons, hkj]
        | some idx =>
          simp only
          have hstep : stepSel me x series cj =
              { cj with selection := some (idx, series) } := by
            simp [stepSel, hidp, hrow]
          have hlt : j < gs.length := lt_of_getq_some hgs
          rw [ih (gs.set j { cj with selection := some (idx, series) }) hnd' k]
          by_cases hkj : k = j
          · subst hkj
            simp [hjn, hgs, hstep, List.getElem?_set_self hlt]
          · have hset : (gs.set j { cj with selection := some (idx, series) })[k]? = gs[k]? :=
              List.getElem?_set_ne (fun hh => hkj hh.symm)
            simp [List.mem_cons, hkj, hset]

theorem selHighlightLoop_trace (prev : List PrevCbs) (me : Chart) (x : Int)
    (row : Nat) (series : String) (js : List Nat) :
    ∀ gs : List Chart, js.Nodup →
    (selHighlightLoop prev me x row series js gs).2 =
      js.filterMap (fun j => (gs[j]?).bind (fun c =>
        if c.id == me.id then
          ((prev[j]?).bind (fun p => p.highlightCallback)).map
            (fun h => Ev.invokePrevHighlight c.id h x row series)
        else
          (c.getRowForX x).map (fun idx => Ev.setSel c.id idx series))) := by
  induction js with
  | nil => intro gs _; simp [selHighlightLoop]
  | cons j js ih =>
    intro gs hnd
    have hjn : j ∉ js := (List.nodup_cons.mp hnd).1
    have hnd' : js.Nodup := (List.nodup_cons.mp hnd).2
    simp only [selHighlightLoop, List.filterMap_cons]
    cases hgs : gs[j]? with
    | none => simp [hgs, ih gs hnd']
    | some cj =>
      by_cases hid : (cj.id == me.id) = true
      · simp only [hgs, hid, Option.some_bind, if_pos]
        cases hpc : (prev[j]?).bind (fun p => p.highlightCallback) with
        | none => simp [hpc, ih gs hnd']
        | some h => simp [hpc, ih gs hnd']
      · have hid2 : (cj.id == me.id) = false := by rwa [Bool.not_eq_true] at hid
        have hidp : ¬ (cj.id = me.id) := by simpa using hid
        cases hrow : cj.getRowForX x with
        | none => simp [hgs, hid2, hidp, hrow, ih gs hnd']
        | some idx =>
          simp only [hgs, hid2, hidp, hrow, Option.some_bind, Bool.false_eq_true,
            if_false, Option.map_some]
          rw [ih (gs.set j { cj with selection := some (idx, series) }) hnd']
          have hcongr : ∀ j2 ∈ js,
              (gs.set j { cj with selection := some (idx, series) })[j2]? = gs[j2]? := by
            intro j2 hj2
            refine List.getElem?_set_ne ?_
            intro hh
            exact hjn (by rw [hh]; exact hj2)
          congr 1
          apply List.filterMap_congr
          intro j2 hj2
          rw [hcongr j2 hj2]

theorem selUnhighlightLoop_trace (prev : List PrevCbs) (me : Chart)
    (js : List Nat) : ∀ gs : List Chart, js.Nodup →
    (selUnhighlightLoop prev me js gs).2 =
      js.filterMap (fun j => (gs[j]?).bind (fun c =>
        if c.id == me.id then
          ((prev[j]?).bind (fun p => p.unhighlightCallback)).map
            (fun h => Ev.invokePrevUnhighlight c.id h)
        else some (Ev.clearSel c.id))) := by
  induction js with
  | nil => intro gs _; simp [selUnhighlightLoop]
  | cons j js ih =>
    intro gs hnd
    have hjn : j ∉ js := (List.nodup_cons.mp hnd).1
    have hnd' : js.Nodup := (List.nodup_cons.mp hnd).2
    simp only [selUnhighlightLoop, List.filterMap_cons]
    cases hgs : gs[j]? with
    | none => simp [hgs, ih gs hnd']
    | some cj =>
      by_cases hid : (cj.id == me.id) = true
      · simp only [hgs, hid, Option.some_bind, if_pos]
        cases hpc : (prev[j]?).bind (fun p => p.unhighlightCallback) with
        | none => simp [hpc, ih gs hnd']
        | some h => simp [hpc, ih gs hnd']
      · have hid2 : (cj.id == me.id) = false := by rwa [Bool.not_eq_true] at hid
        have hidp : ¬ (cj.id = me.id) := by simpa using hid
        simp only [hgs, hid2, hidp, Option.some_bind, Bool.false_eq_true, if_false]
        rw [ih (gs.set j { cj with selection := none }) hnd']
        have hcongr : ∀ j2 ∈ js,
            (gs.set j { cj with selection := none })[j2]? = gs[j2]? := by
          intro j2 hj2
          refine List.getElem?_set_ne ?_
          intro hh
          exact hjn (by rw [hh]; exact hj2)
        congr 1
        apply List.filterMap_congr
        intro j2 hj2
        rw [hcongr j2 hj2]

theorem flatMap_congr_mem {f g : Nat → List WriteEv} :
    ∀ {l : List Nat}, (∀ a ∈ l, f a = g a) → l.flatMap f = l.flatMap g := by
  intro l
  induction l with
  | nil => intro _; rfl
  | cons a l ih =>
    intro h
    simp only [List.flatMap_cons]
    rw [h a (List.mem_cons_self a l), ih (fun b hb => h b (List.mem_cons_of_mem a hb))]

theorem detachChartStep_some (opts : SyncOpts) (prev : List PrevCbs) (i : Nat)
    (g : Chart) (p : PrevCbs) (hp : prev[i]? = some p) :
    detachChartStep opts prev i g =
      .ok (detachApply opts p g, detachWrites opts p g) := by
  cases hz : opts.zoom <;> cases hs : opts.selection <;>
    simp [detachChartStep, detachApply, detachWrites, hp, hz, hs]

theorem detachLoop_ok (opts : SyncOpts) (prev : List PrevCbs) (js : List Nat) :
    ∀ gs : List Chart, js.Nodup → (∀ j ∈ js, j < prev.length) →
    (detachLoop opts prev js gs).2.2 = none ∧
    (∀ k, (detachLoop opts prev js gs).1[k]? =
      if k ∈ js then
        (gs[k]?).bind (fun g => (prev[k]?).map (fun p => detachApply opts p g))
      else gs[k]?) ∧
    (detachLoop opts prev js gs).2.1 =
      js.flatMap (fun j =>
        match gs[j]?, prev[j]? with
        | some g, some p => detachWrites opts p g
        | _, _ => []) := by
  induction js with
  | nil => intro gs _ _; exact ⟨rfl, fun k => by simp [detachLoop], by simp [detachLoop]⟩
  | cons j js ih =>
    intro gs hnd hp
    have hjn : j ∉ js := (List.nodup_cons.mp hnd).1
    have hnd' : js.Nodup := (List.nodup_cons.mp hnd).2
    have hp' : ∀ j2 ∈ js, j2 < prev.length :=
      fun j2 hj2 => hp j2 (List.mem_cons_of_mem j hj2)
    have hpj : j < prev.length := hp j (List.mem_cons_self j js)
    obtain ⟨p, hpe⟩ : ∃ p, prev[j]? = some p := by
      rw [List.getElem?_eq_getElem hpj]; exact ⟨_, rfl⟩
    simp only [detachLoop, List.flatMap_cons]
    cases hgs : gs[j]? with
    | none =>
      obtain ⟨ihe, ihc, ihw⟩ := ih gs hnd' hp'
      refine ⟨ihe, ?_, ?_⟩
      · intro k
        rw [ihc k]
        by_cases hkj : k = j
        · subst hkj; simp [hjn, hgs]
        · simp [List.mem_cons, hkj]
      · simpa using ihw
    | some g =>
      dsimp only
      rw [detachChartStep_some opts prev j g p hpe]
      dsimp only
      obtain ⟨ihe, ihc, ihw⟩ := ih (gs.set j (detachApply opts p g)) hnd' hp'
      refine ⟨ihe, ?_, ?_⟩
      · intro k
        rw [ihc k]
        by_cases hkj : k = j
        · have hlt : j < gs.length := lt_of_getq_some hgs
          rw [hkj]
          simp [hjn, hgs, hpe, List.getElem?_set_self hlt]
        · have hset : (gs.set j (detachApply opts p g))[k]? = gs[k]? :=
            List.getElem?_set_ne (fun hh => hkj hh.symm)
          simp [List.mem_cons, hkj, hset]
      · rw [ihw]
        simp only [hgs, hpe]
        congr 1
        apply flatMap_congr_mem
        intro j2 hj2
        have hset : (gs.set j (detachApply opts p g))[j2]? = gs[j2]? := by
          refine List.getElem?_set_ne ?_
          intro hh
          exact hjn (by rw [hh]; exact hj2)
        rw [hset]

theorem mapWithIndex_getq (f : Nat → Chart → Chart) :
    ∀ (gs : List Chart) (s k : Nat),
    (mapWithIndex f s gs)[k]? = (gs[k]?).map (f (s + k)) := by
  intro gs
  induction gs with
  | nil => intro s k; simp [mapWithIndex]
  | cons c cs ih =>
    intro s k
    cases k with
    | zero => simp [mapWithIndex]
    | succ k =>
      have harith : s + 1 + k = s + (k + 1) := by omega
      simp only [mapWithIndex, List.getElem?_cons_succ, ih (s + 1) k, harith]

theorem mapWithIndex_length (f : Nat → Chart → Chart) :
    ∀ (s : Nat) (gs : List Chart), (mapWithIndex f s gs).length = gs.length := by
  intro s gs
  induction gs generalizing s with
  | nil => rfl
  | cons c cs ih => simp [mapWithIndex, ih]

/-- Pointwise description of the hook slots right after activation. -/
theorem activate_charts (opts : SyncOpts) (gs : List Chart) (k : Nat) :
    ((activate opts gs).1)[k]? = (gs[k]?).map (fun g =>
      (fun g1 => if opts.selection then
          { g1 with highlightCallback := some (.syncHighlight k),
                    unhighlightCallback := some (.syncUnhighlight k) }
        else g1)
      (if opts.zoom then { g with drawCallback := some (.syncDraw k) } else g)) := by
  cases hz : opts.zoom <;> cases hs : opts.selection <;>
    cases hgs : gs[k]? <;>
      simp [activate, attachZoomHandlers, attachSelectionHandlers, hz, hs, hgs,
        mapWithIndex_getq]

theorem activate_length (opts : SyncOpts) (gs : List Chart) :
    ((activate opts gs).1).length = gs.length := by
  cases hz : opts.zoom <;> cases hs : opts.selection <;>
    simp [activate, attachZoomHandlers, attachSelectionHandlers, hz, hs,
      mapWithIndex_length]

theorem activate_prev (opts : SyncOpts) (gs : List Chart) :
    (activate opts gs).2 = captureCallbacks gs := rfl

theorem captureCallbacks_getq (gs : List Chart) (k : Nat) :
    (captureCallbacks gs)[k]? = (gs[k]?).map (fun g =>
      { drawCallback := g.drawCallback
        highlightCallback := g.highlightCallback
        unhighlightCallback := g.unhighlightCallback : PrevCbs }) := by
  simp [captureCallbacks]

theorem captureCallbacks_length (gs : List Chart) :
    (captureCallbacks gs).length = gs.length := by
  simp [captureCallbacks]

theorem detachChartStep_noPrev (opts : SyncOpts) (i : Nat) (g : Chart)
    (hen : (opts.zoom || opts.selection) = true) :
    detachChartStep opts [] i g = .error tyUndefErr := by
  cases hz : opts.zoom <;> cases hs : opts.selection <;>
    simp_all [detachChartStep]

/-- C1, corrected.  detach does not write every slot back unconditionally:
the drawCallback slot is written only when zoom is enabled and the highlight
and unhighlight slots only when selection is enabled (see the
counterexample).  What does hold: for each enabled protocol detach writes
the vaulted value of every chart back by identity, the disabled slots were
never replaced, and therefore after a full activation-detach cycle every
chart equals its pre-activation state exactly. -/
theorem C1_detach_restores (opts : SyncOpts) (gs : List Chart) :
    (detachRun (activateState opts gs)).1 = gs ∧
    (detachRun (activateState opts gs)).2.2 = none ∧
    (opts.zoom = true → ∀ (k : Nat) (g : Chart), gs[k]? = some g →
      WriteEv.setDraw g.id g.drawCallback ∈ (detachRun (activateState opts gs)).2.1) ∧
    (opts.selection = true → ∀ (k : Nat) (g : Chart), gs[k]? = some g →
      WriteEv.setHighlightUnhighlight g.id g.highlightCallback g.unhighlightCallback
        ∈ (detachRun (activateState opts gs)).2.1) ∧
    (opts.zoom = false → ∀ i v,
      WriteEv.setDraw i v ∉ (detachRun (activateState opts gs)).2.1) ∧
    (opts.selection = false → ∀ i hv uv,
      WriteEv.setHighlightUnhighlight i hv uv ∉ (detachRun (activateState opts gs)).2.1) := by
  have hrun : detachRun (activateState opts gs) =
      detachLoop opts (captureCallbacks gs)
        (List.range ((activate opts gs).1).length) (activate opts gs).1 := rfl
  have hnlen : ((activate opts gs).1).length = gs.length := activate_length opts gs
  have hbound : ∀ j ∈ List.range ((activate opts gs).1).length,
      j < (captureCallbacks gs).length := by
    intro j hj
    rw [captureCallbacks_length, ← hnlen]
    exact List.mem_range.mp hj
  obtain ⟨he, hc, hw⟩ := detachLoop_ok opts (captureCallbacks gs)
    (List.range ((activate opts gs).1).length) (activate opts gs).1
    (List.nodup_range _) hbound
  have hpoint : ∀ k : Nat,
      (detachLoop opts (captureCallbacks gs)
        (List.range ((activate opts gs).1).length) (activate opts gs).1).1[k]? = gs[k]? := by
    intro k
    rw [hc k]
    by_cases hk : k ∈ List.range ((activate opts gs).1).length
    · have hklt : k < gs.length := by rw [← hnlen]; exact List.mem_range.mp hk
      obtain ⟨g, hg⟩ : ∃ g, gs[k]? = some g := by
        rw [List.getElem?_eq_getElem hklt]; exact ⟨_, rfl⟩
      rw [activate_charts, captureCallbacks_getq, hg]
      simp only [hk, if_pos, Option.map_some, Option.some_bind]
      cases hz : opts.zoom <;> cases hs : opts.selection <;>
        simp [detachApply, hz, hs]
    · have hklt : ¬ k < ((activate opts gs).1).length := fun hh => hk (List.mem_range.mpr hh)
      have hnone : gs[k]? = none := List.getElem?_eq_none (by omega)
      rw [activate_charts, hnone]
      simp [hk]
  refine ⟨?_, ?_, ?_, ?_, ?_, ?_⟩
  · rw [hrun]
    exact List.ext_getElem? hpoint
  · rw [hrun]; exact he
  · intro hz k g hg
    rw [hrun, hw]
    have hklt : k < gs.length := lt_of_getq_some hg
    refine List.mem_flatMap.mpr ⟨k, List.mem_range.mpr (by omega), ?_⟩
    rw [activate_charts, captureCallbacks_getq, hg]
    cases hs : opts.selection <;>
      simp [detachWrites, hz, hs]
  · intro hs k g hg
    rw [hrun, hw]
    have hklt : k < gs.length := lt_of_getq_some hg
    refine List.mem_flatMap.mpr ⟨k, List.mem_range.mpr (by omega), ?_⟩
    rw [activate_charts, captureCallbacks_getq, hg]
    cases hz : opts.zoom <;>
      simp [detachWrites, hz, hs]
  · intro hz i v hmem
    rw [hrun, hw] at hmem
    obtain ⟨j, _, hj⟩ := List.mem_flatMap.mp hmem
    revert hj
    cases (activate opts gs).1[j]? <;> cases (captureCallbacks gs)[j]? <;>
      cases hs : opts.selection <;> simp [detachWrites, hz, hs]
  · intro hs i hv uv hmem
    rw [hrun, hw] at hmem
    obtain ⟨j, _, hj⟩ := List.mem_flatMap.mp hmem
    revert hj
    cases (activate opts gs).1[j]? <;> cases (captureCallbacks gs)[j]? <;>
      cases hz : opts.zoom <;> simp [detachWrites, hz, hs]

/-- C1 witness: on a concrete two-chart group with default options, detach
restores the exact original charts and writes the vaulted drawCallback of
chart 0 back by identity. -/
theorem C1_witness :
    (detachRun (activateState {} [exA, exB])).1 = [exA, exB] ∧
    WriteEv.setDraw 0 (some (.user 1)) ∈ (detachRun (activateState {} [exA, exB])).2.1 := by
  have h := C1_detach_restores {} [exA, exB]
  refine ⟨h.1, ?_⟩
  have h3 := h.2.2.1 rfl 0 exA rfl
  simpa [exA] using h3

/-- C1 counterexample: with selection disabled, the vaulted highlight hook
of chart 0 exists (identity token user 2), yet the writes performed by
detach are exactly the two drawCallback restores — no chart has its
highlight or unhighlight slot written back, contradicting the claim that
every vaulted slot is written regardless of which protocols were
enabled. -/
theorem C1_counterexample :
    ((activateState { selection := false } [exA, exB]).prevCallbacks[0]?).map
        (fun p => p.highlightCallback) = some (some (.user 2)) ∧
    (detachRun (activateState { selection := false } [exA, exB])).2.1 =
      [WriteEv.setDraw 0 (some (.user 1)), WriteEv.setDraw 1 none] := by
  constructor
  · rfl
  · rfl

/-- C8, confirmed.  A successful detach nulls the internal handle state, and
running detach again on the released handle raises (dygraphs is null) rather
than silently succeeding. -/
theorem C8_detach_not_idempotent (st : SyncState)
    (h : (detachOp (some st)).2 = none) :
    (detachOp (some st)).1 = none ∧
    detachOp ((detachOp (some st)).1) = (none, some tyNullErr) := by
  cases hr : (detachRun st).2.2 with
  | none => simp [detachOp, hr, tyNullErr]
  | some e => simp [detachOp, hr] at h

/-- C8 witness: a concrete activated two-chart group; its first detach
succeeds and releases the state, the second fails. -/
theorem C8_witness :
    (detachOp (some (activateState {} [exA, exB]))).1 = none ∧
    detachOp ((detachOp (some (activateState {} [exA, exB]))).1) =
      (none, some tyNullErr) := by
  exact C8_detach_not_idempotent (activateState {} [exA, exB]) rfl

/-- C10, confirmed.  Before the readiness barrier releases, prevCallbacks is
still the empty array; detach with zoom or selection enabled then
dereferences a missing snapshot entry for the first chart and raises,
having restored nothing, and the internal handle state is not cleared. -/
theorem C10_detach_before_ready (st : SyncState)
    (hprev : st.prevCallbacks = []) (hne : st.dygraphs ≠ [])
    (hen : (st.opts.zoom || st.opts.selection) = true) :
    detachRun st = (st.dygraphs, [], some tyUndefErr) ∧
    detachOp (some st) = (some st, some tyUndefErr) := by
  obtain ⟨g0, rest, hgs⟩ : ∃ g0 rest, st.dygraphs = g0 :: rest := by
    cases hdy : st.dygraphs with
    | nil => exact absurd hdy hne
    | cons g0 rest => exact ⟨g0, rest, rfl⟩
  have hrun : detachRun st = (st.dygraphs, [], some tyUndefErr) := by
    show detachLoop st.opts st.prevCallbacks
        (List.range st.dygraphs.length) st.dygraphs = _
    rw [hprev, hgs]
    rw [List.length_cons, List.range_succ_eq_map]
    simp only [detachLoop, List.getElem?_cons_zero]
    rw [detachChartStep_noPrev st.opts 0 g0 hen]
  refine ⟨hrun, ?_⟩
  show (match (detachRun st).2.2 with
    | some e => (some { st with dygraphs := (detachRun st).1 }, some e)
    | none => (none, none)) = _
  rw [hrun]

/-- C10 witness: a concrete handle whose barrier has not released. -/
theorem C10_witness :
    detachRun { dygraphs := [exA, exB], opts := {}, prevCallbacks := [] } =
      ([exA, exB], [], some tyUndefErr) ∧
    detachOp (some { dygraphs := [exA, exB], opts := {}, prevCallbacks := [] }) =
      (some { dygraphs := [exA, exB], opts := {}, prevCallbacks := [] }, some tyUndefErr) := by
  exact C10_detach_before_ready
    { dygraphs := [exA, exB], opts := {}, prevCallbacks := [] }
    rfl (by simp) rfl

theorem nodup_ids_getq (gs : List Chart) (hnd : (gs.map (fun c => c.id)).Nodup)
    {i j : Nat} {ci cj : Chart} (hi : gs[i]? = some ci) (hj : gs[j]? = some cj)
    (hij : i ≠ j) : ci.id ≠ cj.id := by
  intro hid
  have hilt : i < gs.length := lt_of_getq_some hi
  have hjlt : j < gs.length := lt_of_getq_some hj
  have hilt2 : i < (gs.map (fun c => c.id)).length := by simpa using hilt
  have hjlt2 : j < (gs.map (fun c => c.id)).length := by simpa using hjlt
  have hgi : gs[i] = ci := by
    have := List.getElem?_eq_getElem hilt
    rw [hi] at this
    exact (Option.some.inj this).symm
  have hgj : gs[j] = cj := by
    have := List.getElem?_eq_getElem hjlt
    rw [hj] at this
    exact (Option.some.inj this).symm
  have he : (gs.map (fun c => c.id))[i] = (gs.map (fun c => c.id))[j] := by
    simp [hgi, hgj, hid]
  exact hij ((List.Nodup.getElem_inj_iff hnd).mp he)

theorem filterMap_length_all_some {β : Type} (g : Nat → Option β) :
    ∀ l : List Nat, (∀ j ∈ l, (g j).isSome) → (l.filterMap g).length = l.length := by
  intro l
  induction l with
  | nil => intro _; rfl
  | cons b l ih =>
    intro h
    obtain ⟨c, hc⟩ := Option.isSome_iff_exists.mp (h b (List.mem_cons_self b l))
    rw [List.filterMap_cons, hc]
    simp [ih (fun j hj => h j (List.mem_cons_of_mem b hj))]

theorem filterMap_range_length_pred {β : Type} (a : Nat) (g : Nat → Option β) :
    ∀ n : Nat, a < n → g a = none → (∀ j, j < n → j ≠ a → (g j).isSome) →
    ((List.range n).filterMap g).length = n - 1 := by
  intro n
  induction n with
  | zero => intro h; omega
  | succ n ih =>
    intro ha hga hg
    rw [List.range_succ, List.filterMap_append, List.length_append]
    by_cases han : a = n
    · have hall2 := filterMap_length_all_some g (List.range n) (fun j hj =>
        hg j (Nat.lt_succ_of_lt (List.mem_range.mp hj))
          (fun hh => by
            rw [hh, han] at hj
            exact absurd (List.mem_range.mp hj) (Nat.lt_irrefl n)))
      have hall : ((List.range n).filterMap g).length = n := by
        rw [hall2, List.length_range]
      rw [hall, ← han, List.filterMap_cons, hga]
      simp
    · have ha2 : a < n := by omega
      have hlast : (g n).isSome := hg n (Nat.lt_succ_self n) (fun hh => han hh.symm)
      obtain ⟨c, hc⟩ := Option.isSome_iff_exists.mp hlast
      rw [ih ha2 hga (fun j hj hja => hg j (Nat.lt_succ_of_lt hj) hja)]
      rw [List.filterMap_cons, hc]
      simp
      omega

theorem filterMap_length_le_pred {β : Type} (g : Nat → Option β) (a : Nat) :
    ∀ l : List Nat, a ∈ l → g a = none →
    (l.filterMap g).length ≤ l.length - 1 := by
  intro l
  induction l with
  | nil => intro hal; cases hal
  | cons b l ih =>
    intro hal hga
    rcases List.mem_cons.mp hal with hba | hal2
    · rw [List.filterMap_cons, ← hba, hga]
      simpa using List.length_filterMap_le g l
    · have hlen : 1 ≤ l.length := List.length_pos.mpr (List.ne_nil_of_mem hal2)
      rw [List.filterMap_cons]
      cases hgb : g b with
      | none =>
        have := ih hal2 hga
        simp only [List.length_cons]
        omega
      | some c =>
        have := ih hal2 hga
        simp only [List.length_cons, List.length_cons]
        omega

theorem stepZoom_range_none (me : Chart) (patch : ZoomPatch)
    (hp : patch.valueRange = none) (c : Chart) :
    (stepZoom me patch c).valueRange = c.valueRange ∧
    (stepZoom me patch c).yRange = c.yRange := by
  unfold stepZoom applyZoomPatch
  by_cases h1 : (c.id == me.id) = true <;> by_cases h2 : skipB patch c = true <;>
    simp [h1, h2, hp]

/-- C2, corrected.  When the guard is set or the draw is the initial draw of
the chart, the installed drawCallback returns immediately: the charts and
the guard are untouched and the operation trace is empty — in particular,
contrary to the claim, the vaulted draw-hook of the firing chart is NOT
invoked on that path (see the counterexample). -/
theorem C2_blocked_or_initial (so : SyncOpts) (prev : List PrevCbs) (f : Nat)
    (gs : List Chart) (block : Bool) (me : Chart) (initial : Bool)
    (h : (block || initial) = true) :
    zoomDraw so prev (f + 1) gs block me initial = some (gs, block, []) :=
  zoomDraw_of_block_or_initial so prev f gs block me initial h

/-- C2 witness: a concrete initial draw returns at once with an empty
trace. -/
theorem C2_witness :
    zoomDraw {} (captureCallbacks [exA, exB]) 3 [exA, exB] false exA true =
      some ([exA, exB], false, []) :=
  C2_blocked_or_initial {} (captureCallbacks [exA, exB]) 2 [exA, exB] false exA true rfl

/-- C2 counterexample: on an initial draw of chart exA, whose vaulted
draw-hook exists (identity token user 1), the handler returns with an empty
operation trace — no invocation of the vaulted draw-hook happens, refuting
the claim that it is still invoked with the original arguments. -/
theorem C2_counterexample :
    ((captureCallbacks [exA, exB])[0]?).bind (fun p => p.drawCallback) =
      some (.user 1) ∧
    zoomDraw {} (captureCallbacks [exA, exB]) 3 [exA, exB] false exA true =
      some ([exA, exB], false, []) := by
  exact ⟨rfl, rfl⟩

/-- C7, confirmed.  With range disabled the zoom patch carries no valueRange
key: no updateOptions call issued by the handler writes a value range, and
every chart keeps both its configured valueRange option and its y
viewport. -/
theorem C7_range_false_frame (so : SyncOpts) (prev : List PrevCbs) (f : Nat)
    (gs : List Chart) (block : Bool) (me : Chart) (initial : Bool)
    (gs2 : List Chart) (b2 : Bool) (tr : List Ev)
    (hr : so.range = false)
    (hrun : zoomDraw so prev (f + 2) gs block me initial = some (gs2, b2, tr)) :
    (∀ k : Nat, (gs2[k]?).map (fun c => c.valueRange) =
      (gs[k]?).map (fun c => c.valueRange)) ∧
    (∀ k : Nat, (gs2[k]?).map (fun c => c.yRange) =
      (gs[k]?).map (fun c => c.yRange)) ∧
    (∀ (i : Nat) (p : ZoomPatch), Ev.updateOpts i p ∈ tr → p.valueRange = none) := by
  have hpn : (mkPatch so me).valueRange = none := by simp [mkPatch, hr]
  by_cases hbi : (block || initial) = true
  · rw [zoomDraw_of_block_or_initial so prev (f + 1) gs block me initial hbi] at hrun
    simp only [Option.some.injEq, Prod.mk.injEq] at hrun
    obtain ⟨h1, _, h3⟩ := hrun
    subst h1
    subst h3
    exact ⟨fun k => rfl, fun k => rfl, fun i p hp => absurd hp (List.not_mem_nil _)⟩
  · have hb : block = false := by cases block <;> simp_all
    have hi : initial = false := by cases initial <;> simp_all
    subst hb
    subst hi
    rw [zoomDraw_run so prev f gs me] at hrun
    simp only [Option.some.injEq, Prod.mk.injEq] at hrun
    obtain ⟨h1, _, h3⟩ := hrun
    subst h1
    subst h3
    refine ⟨?_, ?_, ?_⟩
    · intro k
      rw [zoomLoopPure_charts prev me (mkPatch so me) (List.range gs.length) gs
        (List.nodup_range _) k]
      by_cases hk : k ∈ List.range gs.length
      · simp only [hk, if_pos]
        cases hgk : gs[k]? with
        | none => rfl
        | some c => simp [(stepZoom_range_none me (mkPatch so me) hpn c).1]
      · simp [hk]
    · intro k
      rw [zoomLoopPure_charts prev me (mkPatch so me) (List.range gs.length) gs
        (List.nodup_range _) k]
      by_cases hk : k ∈ List.range gs.length
      · simp only [hk, if_pos]
        cases hgk : gs[k]? with
        | none => rfl
        | some c => simp [(stepZoom_range_none me (mkPatch so me) hpn c).2]
      · simp [hk]
    · intro i p hp
      rw [zoomLoopPure_trace prev me (mkPatch so me) (List.range gs.length) gs
        (List.nodup_range _)] at hp
      obtain ⟨j, hj, hev⟩ := List.mem_filterMap.mp hp
      revert hev
      cases hgj : gs[j]? with
      | none => simp
      | some c =>
        by_cases hcid : (c.id == me.id) = true
        · have hcidp : c.id = me.id := by simpa using hcid
          cases hpc : (prev[j]?).bind (fun q => q.drawCallback) <;>
            simp [hcidp, hpc]
        · have hcidp : ¬ (c.id = me.id) := by simpa using hcid
          by_cases hsk : skipB (mkPatch so me) c = true
          · simp [hcidp, hsk]
          · have hcid2 : (c.id == me.id) = false := by rwa [Bool.not_eq_true] at hcid
            have hsk2 : skipB (mkPatch so me) c = false := by
              rwa [Bool.not_eq_true] at hsk
            intro hev
            simp only [Option.some_bind, hcid2, hsk2, Bool.false_eq_true, if_false,
              Option.some.injEq] at hev
            obtain ⟨-, hev2⟩ := Ev.updateOpts.inj hev
            rw [← hev2, hpn]

/-- C7 witness: a concrete run with range disabled; both conjunct families
hold at the sample group. -/
theorem C7_witness :
    ∃ gs2 b2 tr,
      zoomDraw { range := false } (captureCallbacks [exA, exB]) 3 [exA, exB]
        false exA false = some (gs2, b2, tr) ∧
      (∀ k : Nat, (gs2[k]?).map (fun c => c.valueRange) =
        (([exA, exB] : List Chart)[k]?).map (fun c => c.valueRange)) ∧
      (∀ (i : Nat) (p : ZoomPatch), Ev.updateOpts i p ∈ tr → p.valueRange = none) := by
  refine ⟨_, _, _, rfl, ?_⟩
  have h := C7_range_false_frame { range := false } (captureCallbacks [exA, exB]) 1
    [exA, exB] false exA false _ _ _ rfl rfl
  exact ⟨h.1, h.2.2⟩

theorem invokePrev_bind_updEvId (x : Option HookVal) (cid mid : Nat) :
    ((x.map (fun h => Ev.invokePrevDraw cid h mid)).bind updEvId) = none := by
  cases x <;> simp [updEvId]

/-- C3, corrected.  The skip decision of lines 191-194 requires BOTH
arraysAreEqual comparisons to succeed: the configured date window must equal
the patch dateWindow AND the configured value range must equal the patch
valueRange entry.  When the range option is false the patch has no
valueRange, arraysAreEqual against an absent value is always false, and so
no chart is ever skipped: the date window alone never suffices, contrary to
the claim. -/
theorem C3_skip_condition :
    (∀ (so : SyncOpts) (prev : List PrevCbs) (f : Nat) (gs : List Chart)
      (me : Chart) (a j : Nat) (cj : Chart) (gs2 : List Chart) (b2 : Bool)
      (tr : List Ev),
      (gs.map (fun c => c.id)).Nodup →
      gs[a]? = some me → gs[j]? = some cj → j ≠ a →
      zoomDraw so prev (f + 2) gs false me false = some (gs2, b2, tr) →
      ((¬ ∃ p : ZoomPatch, Ev.updateOpts cj.id p ∈ tr) ↔
        skipB (mkPatch so me) cj = true)) ∧
    (∀ (so : SyncOpts) (me cj : Chart), so.range = false →
      skipB (mkPatch so me) cj = false) := by
  constructor
  · intro so prev f gs me a j cj gs2 b2 tr hnd ha hj hja hrun
    rw [zoomDraw_run so prev f gs me] at hrun
    simp only [Option.some.injEq, Prod.mk.injEq] at hrun
    obtain ⟨h1, _, h3⟩ := hrun
    subst h1
    subst h3
    rw [zoomLoopPure_trace prev me (mkPatch so me) (List.range gs.length) gs
      (List.nodup_range _)]
    have hjid : cj.id ≠ me.id := nodup_ids_getq gs hnd hj ha hja
    have hjid2 : (cj.id == me.id) = false := by simpa using hjid
    have hjlt : j < gs.length := lt_of_getq_some hj
    have fwd : (∃ p : ZoomPatch, Ev.updateOpts cj.id p ∈
        (List.range gs.length).filterMap (fun k => (gs[k]?).bind (fun c =>
          if c.id == me.id then
            ((prev[k]?).bind (fun q => q.drawCallback)).map
              (fun h => Ev.invokePrevDraw c.id h me.id)
          else if skipB (mkPatch so me) c then none
          else some (Ev.updateOpts c.id (mkPatch so me))))) →
        skipB (mkPatch so me) cj = false := by
      rintro ⟨p, hp⟩
      obtain ⟨j2, hj2, hev⟩ := List.mem_filterMap.mp hp
      revert hev
      cases hgj2 : gs[j2]? with
      | none => simp
      | some c2 =>
        by_cases hcid : (c2.id == me.id) = true
        · have hcp : c2.id = me.id := by simpa using hcid
          cases hpc : (prev[j2]?).bind (fun q => q.drawCallback) <;>
            simp [hcp, hpc]
        · have hcp : ¬ (c2.id = me.id) := by simpa using hcid
          by_cases hsk : skipB (mkPatch so me) c2 = true
          · simp [hcp, hsk]
          · intro hev
            have hsk2 : skipB (mkPatch so me) c2 = false := by
              rwa [Bool.not_eq_true] at hsk
            have hcid2 : (c2.id == me.id) = false := by
              rwa [Bool.not_eq_true] at hcid
            simp only [Option.some_bind, hcid2, hsk2, Bool.false_eq_true, if_false,
              Option.some.injEq] at hev
            obtain ⟨hid2, -⟩ := Ev.updateOpts.inj hev
            by_cases hjj : j2 = j
            · rw [hjj] at hgj2
              rw [hj] at hgj2
              have hcj : cj = c2 := Option.some.inj hgj2
              rw [hcj]
              exact hsk2
            · exact absurd hid2 (nodup_ids_getq gs hnd hgj2 hj hjj)
    have bwd : skipB (mkPatch so me) cj = false →
        (∃ p : ZoomPatch, Ev.updateOpts cj.id p ∈
          (List.range gs.length).filterMap (fun k => (gs[k]?).bind (fun c =>
            if c.id == me.id then
              ((prev[k]?).bind (fun q => q.drawCallback)).map
                (fun h => Ev.invokePrevDraw c.id h me.id)
            else if skipB (mkPatch so me) c then none
            else some (Ev.updateOpts c.id (mkPatch so me))))) := by
      intro hsk
      refine ⟨mkPatch so me, List.mem_filterMap.mpr ⟨j, List.mem_range.mpr hjlt, ?_⟩⟩
      rw [hj]
      simp [hjid, hjid2, hsk]
    constructor
    · intro hne
      by_contra hns
      have hsk : skipB (mkPatch so me) cj = false := by
        rwa [Bool.not_eq_true] at hns
      exact hne (bwd hsk)
    · intro hsk hex
      rw [fwd hex] at hsk
      exact Bool.noConfusion hsk
  · intro so me cj hr
    simp [skipB, mkPatch, hr, arraysAreEqual]

/-- C3 witness: with range false, group [exA, exD], firing chart exA at
position 0 and other chart exD at position 1, the characterization holds
concretely (exD is updated, and indeed its skip test is false). -/
theorem C3_witness :
    ∃ gs2 b2 tr,
      zoomDraw { range := false } (captureCallbacks [exA, exD]) 3 [exA, exD]
        false exA false = some (gs2, b2, tr) ∧
      ((¬ ∃ p : ZoomPatch, Ev.updateOpts exD.id p ∈ tr) ↔
        skipB (mkPatch { range := false } exA) exD = true) := by
  refine ⟨_, _, _, rfl, ?_⟩
  exact C3_skip_condition.1 { range := false } (captureCallbacks [exA, exD]) 1
    [exA, exD] exA 0 1 exD _ _ _ (by decide) rfl rfl (by decide) rfl

/-- C3 counterexample: range is false and the configured date window of exD
equals the x-range of the firing chart exA, so per the claim exD must be
skipped; the run still issues exactly one updateOptions call, to exD. -/
theorem C3_counterexample :
    ({ range := false } : SyncOpts).range = false ∧
    arraysAreEqual (some exA.xRange) exD.dateWindow = true ∧
    exD.id = 1 ∧
    ((zoomDraw { range := false } (captureCallbacks [exA, exD]) 3 [exA, exD]
        false exA false).map (fun r => r.2.2.filterMap updEvId)) = some [1] := by
  exact ⟨rfl, rfl, rfl, rfl⟩

/-- C5, confirmed.  With zoom propagation triggered on chart me at position
a of a group with pairwise distinct chart identities, in which no other
chart already carries the propagated viewport (the skip test fails for every
other chart), the run issues exactly one updateOptions call per other chart,
in group order — N-1 updates in total; and without any such assumption, the
number of updateOptions calls of a run never exceeds N-1 no matter what the
re-entrant draws do. -/
theorem C5_propagation_count :
    (∀ (so : SyncOpts) (prev : List PrevCbs) (f : Nat) (gs : List Chart)
      (me : Chart) (a : Nat),
      gs[a]? = some me →
      (gs.map (fun c => c.id)).Nodup →
      (((List.range gs.length).all fun j =>
        match gs[j]? with
        | some c => (j == a) || !skipB (mkPatch so me) c
        | none => true) = true) →
      ∃ gs2 tr,
        zoomDraw so prev (f + 2) gs false me false = some (gs2, false, tr) ∧
        tr.filterMap updEvId =
          (List.range gs.length).filterMap
            (fun j => if j = a then none else (gs[j]?).map (fun c => c.id)) ∧
        (tr.filterMap updEvId).length = gs.length - 1) ∧
    (∀ (so : SyncOpts) (prev : List PrevCbs) (f : Nat) (gs : List Chart)
      (me : Chart) (a : Nat) (gs2 : List Chart) (b2 : Bool) (tr : List Ev),
      gs[a]? = some me →
      zoomDraw so prev (f + 2) gs false me false = some (gs2, b2, tr) →
      (tr.filterMap updEvId).length ≤ gs.length - 1) := by
  constructor
  · intro so prev f gs me a ha hnd hall
    have halt : a < gs.length := lt_of_getq_some ha
    have heq : ((zoomLoopPure prev me (mkPatch so me) (List.range gs.length) gs).2).filterMap updEvId =
        (List.range gs.length).filterMap
          (fun j => if j = a then none else (gs[j]?).map (fun c => c.id)) := by
      rw [zoomLoopPure_trace prev me (mkPatch so me) (List.range gs.length) gs
        (List.nodup_range _), List.filterMap_filterMap]
      apply List.filterMap_congr
      intro j hjr
      have hjlt : j < gs.length := List.mem_range.mp hjr
      obtain ⟨c, hc⟩ : ∃ c, gs[j]? = some c := by
        rw [List.getElem?_eq_getElem hjlt]; exact ⟨_, rfl⟩
      by_cases hja : j = a
      · rw [hja] at hc ⊢
        have hcme : c = me := by
          rw [hc] at ha
          exact Option.some.inj ha
        rw [hc, hcme]
        simp only [Option.some_bind, beq_self_eq_true, if_pos, if_true, reduceIte]
        rw [invokePrev_bind_updEvId]
      · have hcid : c.id ≠ me.id := nodup_ids_getq gs hnd hc ha hja
        have hcid2 : (c.id == me.id) = false := by simpa using hcid
        have hthis := List.all_eq_true.mp hall j hjr
        rw [hc] at hthis
        simp only [Bool.or_eq_true, beq_iff_eq, Bool.not_eq_true'] at hthis
        have hskf : skipB (mkPatch so me) c = false := hthis.resolve_left hja
        rw [hc]
        simp [hcid, hcid2, hskf, updEvId, hja]
    refine ⟨(zoomLoopPure prev me (mkPatch so me) (List.range gs.length) gs).1,
      (zoomLoopPure prev me (mkPatch so me) (List.range gs.length) gs).2,
      zoomDraw_run so prev f gs me, heq, ?_⟩
    rw [heq]
    apply filterMap_range_length_pred a _ gs.length halt
    · simp
    · intro j hjlt hja
      rw [List.getElem?_eq_getElem hjlt]
      simp [hja]
  · intro so prev f gs me a gs2 b2 tr ha hrun
    rw [zoomDraw_run so prev f gs me] at hrun
    simp only [Option.some.injEq, Prod.mk.injEq] at hrun
    obtain ⟨h1, -, h3⟩ := hrun
    subst h1
    subst h3
    rw [zoomLoopPure_trace prev me (mkPatch so me) (List.range gs.length) gs
      (List.nodup_range _), List.filterMap_filterMap]
    have halt : a < gs.length := lt_of_getq_some ha
    have hga : ((gs[a]?).bind (fun c =>
        if c.id == me.id then
          ((prev[a]?).bind (fun q => q.drawCallback)).map
            (fun h => Ev.invokePrevDraw c.id h me.id)
        else if skipB (mkPatch so me) c then none
        else some (Ev.updateOpts c.id (mkPatch so me)))).bind updEvId = none := by
      rw [ha]
      simp only [Option.some_bind, beq_self_eq_true, if_pos, if_true, reduceIte]
      rw [invokePrev_bind_updEvId]
    have hle := filterMap_length_le_pred
      (fun j => ((gs[j]?).bind (fun c =>
        if c.id == me.id then
          ((prev[j]?).bind (fun q => q.drawCallback)).map
            (fun h => Ev.invokePrevDraw c.id h me.id)
        else if skipB (mkPatch so me) c then none
        else some (Ev.updateOpts c.id (mkPatch so me)))).bind updEvId)
      a (List.range gs.length) (List.mem_range.mpr halt) hga
    rw [List.length_range] at hle
    exact hle

/-- C5 witness: a concrete three-chart group with default options; the
propagation issues exactly one update per other chart, two in total. -/
theorem C5_witness :
    ∃ gs2 tr,
      zoomDraw {} (captureCallbacks [exA, exB, exC]) 3 [exA, exB, exC]
        false exA false = some (gs2, false, tr) ∧
      tr.filterMap updEvId =
        (List.range ([exA, exB, exC] : List Chart).length).filterMap
          (fun j => if j = 0 then none
            else (([exA, exB, exC] : List Chart)[j]?).map (fun c => c.id)) ∧
      (tr.filterMap updEvId).length = ([exA, exB, exC] : List Chart).length - 1 :=
  C5_propagation_count.1 {} (captureCallbacks [exA, exB, exC]) 1
    [exA, exB, exC] exA 0 rfl (by decide) (by decide)

/-- C9, confirmed.  Each guard is shared per protocol: an invocation that
enters with the guard set performs nothing at all (no chart operation, no
state change); an invocation that enters with the guard clear returns with
the guard clear again, having completed its whole propagation loop —
including the invocation of the vaulted hook of the originating chart when
one was captured — before the guard is released. -/
theorem C9_guard_invariant :
    (∀ (so : SyncOpts) (prev : List PrevCbs) (f : Nat) (gs : List Chart)
      (me : Chart) (initial : Bool),
      zoomDraw so prev (f + 1) gs true me initial = some (gs, true, [])) ∧
    (∀ (so : SyncOpts) (prev : List PrevCbs) (f : Nat) (gs : List Chart)
      (me : Chart) (initial : Bool),
      ∃ gs2 tr, zoomDraw so prev (f + 2) gs false me initial =
        some (gs2, false, tr)) ∧
    (∀ (prev : List PrevCbs) (gs : List Chart) (me : Chart) (x : Int)
      (row : Nat) (series : String),
      highlightCb prev gs true me x row series = (gs, true, []) ∧
      (highlightCb prev gs false me x row series).2.1 = false) ∧
    (∀ (prev : List PrevCbs) (gs : List Chart) (me : Chart),
      unhighlightCb prev gs true me = (gs, true, []) ∧
      (unhighlightCb prev gs false me).2.1 = false) ∧
    (∀ (so : SyncOpts) (prev : List PrevCbs) (f : Nat) (gs : List Chart)
      (me : Chart) (a : Nat) (hk : HookVal) (gs2 : List Chart) (b2 : Bool)
      (tr : List Ev),
      gs[a]? = some me →
      (prev[a]?).bind (fun p => p.drawCallback) = some hk →
      zoomDraw so prev (f + 2) gs false me false = some (gs2, b2, tr) →
      Ev.invokePrevDraw me.id hk me.id ∈ tr) ∧
    (∀ (prev : List PrevCbs) (gs : List Chart) (me : Chart) (a : Nat)
      (hk : HookVal) (x : Int) (row : Nat) (series : String),
      gs[a]? = some me →
      (prev[a]?).bind (fun p => p.highlightCallback) = some hk →
      Ev.invokePrevHighlight me.id hk x row series ∈
        (highlightCb prev gs false me x row series).2.2) ∧
    (∀ (prev : List PrevCbs) (gs : List Chart) (me : Chart) (a : Nat)
      (hk : HookVal),
      gs[a]? = some me →
      (prev[a]?).bind (fun p => p.unhighlightCallback) = some hk →
      Ev.invokePrevUnhighlight me.id hk ∈ (unhighlightCb prev gs false me).2.2) := by
  refine ⟨?_, ?_, ?_, ?_, ?_, ?_, ?_⟩
  · intro so prev f gs me initial
    exact zoomDraw_of_block_or_initial so prev f gs true me initial rfl
  · intro so prev f gs me initial
    cases hi : initial with
    | true =>
      exact ⟨gs, [], zoomDraw_of_block_or_initial so prev (f + 1) gs false me true rfl⟩
    | false =>
      exact ⟨_, _, zoomDraw_run so prev f gs me⟩
  · intro prev gs me x row series
    exact ⟨rfl, rfl⟩
  · intro prev gs me
    exact ⟨rfl, rfl⟩
  · intro so prev f gs me a hk gs2 b2 tr ha hpc hrun
    rw [zoomDraw_run so prev f gs me] at hrun
    simp only [Option.some.injEq, Prod.mk.injEq] at hrun
    obtain ⟨-, -, h3⟩ := hrun
    rw [← h3]
    rw [zoomLoopPure_trace prev me (mkPatch so me) (List.range gs.length) gs
      (List.nodup_range _)]
    have halt : a < gs.length := lt_of_getq_some ha
    refine List.mem_filterMap.mpr ⟨a, List.mem_range.mpr halt, ?_⟩
    rw [ha, hpc]
    simp
  · intro prev gs me a hk x row series ha hpc
    show Ev.invokePrevHighlight me.id hk x row series ∈
      (selHighlightLoop prev me x row series (List.range gs.length) gs).2
    rw [selHighlightLoop_trace prev me x row series (List.range gs.length) gs
      (List.nodup_range _)]
    have halt : a < gs.length := lt_of_getq_some ha
    refine List.mem_filterMap.mpr ⟨a, List.mem_range.mpr halt, ?_⟩
    rw [ha, hpc]
    simp
  · intro prev gs me a hk ha hpc
    show Ev.invokePrevUnhighlight me.id hk ∈
      (selUnhighlightLoop prev me (List.range gs.length) gs).2
    rw [selUnhighlightLoop_trace prev me (List.range gs.length) gs
      (List.nodup_range _)]
    have halt : a < gs.length := lt_of_getq_some ha
    refine List.mem_filterMap.mpr ⟨a, List.mem_range.mpr halt, ?_⟩
    rw [ha, hpc]
    simp

/-- C9 witness: concrete guard behaviour on the sample group, including the
vaulted draw-hook invocation of the originating chart. -/
theorem C9_witness :
    zoomDraw {} (captureCallbacks [exA, exB]) 3 [exA, exB] true exA false =
      some ([exA, exB], true, []) ∧
    (highlightCb (captureCallbacks [exA, exB]) [exA, exB] false exA 20 5 "t").2.1 = false ∧
    (∃ gs2 b2 tr, zoomDraw {} (captureCallbacks [exA, exB]) 3 [exA, exB] false exA false =
        some (gs2, b2, tr) ∧ Ev.invokePrevDraw 0 (.user 1) 0 ∈ tr) := by
  refine ⟨C9_guard_invariant.1 {} (captureCallbacks [exA, exB]) 2 [exA, exB] exA false, ?_, ?_⟩
  · exact (C9_guard_invariant.2.2.1 (captureCallbacks [exA, exB]) [exA, exB] exA 20 5 "t").2
  · refine ⟨_, _, _, rfl, ?_⟩
    exact C9_guard_invariant.2.2.2.2.1 {} (captureCallbacks [exA, exB]) 1
      [exA, exB] exA 0 (.user 1) _ _ _ rfl rfl rfl

/-- C6, confirmed.  On a highlight fired by me at x with series s: every
other chart whose getRowForX mapping succeeds gets a selection at that local
row and series; a chart whose mapping fails is left entirely unchanged; me
itself gets no selection applied — its vaulted highlight hook is invoked
with the original arguments when one was captured — and no vaulted highlight
hook of any other chart is invoked for this event. -/
theorem C6_highlight_propagation (prev : List PrevCbs) (gs : List Chart)
    (me : Chart) (a : Nat) (x : Int) (row : Nat) (series : String)
    (ha : gs[a]? = some me)
    (hnd : (gs.map (fun c => c.id)).Nodup) :
    (∀ (j : Nat) (cj : Chart) (idx : Nat), gs[j]? = some cj → j ≠ a →
      cj.getRowForX x = some idx →
      (highlightCb prev gs false me x row series).1[j]? =
        some { cj with selection := some (idx, series) } ∧
      Ev.setSel cj.id idx series ∈ (highlightCb prev gs false me x row series).2.2) ∧
    (∀ (j : Nat) (cj : Chart), gs[j]? = some cj → j ≠ a →
      cj.getRowForX x = none →
      (highlightCb prev gs false me x row series).1[j]? = some cj) ∧
    ((highlightCb prev gs false me x row series).1[a]? = some me) ∧
    (∀ hk : HookVal, (prev[a]?).bind (fun p => p.highlightCallback) = some hk →
      Ev.invokePrevHighlight me.id hk x row series ∈
        (highlightCb prev gs false me x row series).2.2) ∧
    (∀ (i : Nat) (hk : HookVal) (x2 : Int) (r2 : Nat) (s2 : String),
      Ev.invokePrevHighlight i hk x2 r2 s2 ∈
        (highlightCb prev gs false me x row series).2.2 → i = me.id) ∧
    (∀ (idx : Nat) (s2 : String),
      Ev.setSel me.id idx s2 ∉ (highlightCb prev gs false me x row series).2.2) := by
  have halt : a < gs.length := lt_of_getq_some ha
  have hcb : highlightCb prev gs false me x row series =
      ((selHighlightLoop prev me x row series (List.range gs.length) gs).1, false,
        (selHighlightLoop prev me x row series (List.range gs.length) gs).2) := rfl
  refine ⟨?_, ?_, ?_, ?_, ?_, ?_⟩
  · intro j cj idx hj hja hrow
    have hjlt : j < gs.length := lt_of_getq_some hj
    have hcid : cj.id ≠ me.id := nodup_ids_getq gs hnd hj ha hja
    have hcid2 : (cj.id == me.id) = false := by simpa using hcid
    constructor
    · rw [hcb]
      rw [selHighlightLoop_charts prev me x row series (List.range gs.length) gs
        (List.nodup_range _) j]
      rw [hj]
      simp [List.mem_range.mpr hjlt, stepSel, hcid, hrow]
    · rw [hcb]
      rw [selHighlightLoop_trace prev me x row series (List.range gs.length) gs
        (List.nodup_range _)]
      refine List.mem_filterMap.mpr ⟨j, List.mem_range.mpr hjlt, ?_⟩
      rw [hj]
      simp [hcid, hcid2, hrow]
  · intro j cj hj hja hrow
    have hjlt : j < gs.length := lt_of_getq_some hj
    have hcid : cj.id ≠ me.id := nodup_ids_getq gs hnd hj ha hja
    rw [hcb]
    rw [selHighlightLoop_charts prev me x row series (List.range gs.length) gs
      (List.nodup_range _) j]
    rw [hj]
    simp [List.mem_range.mpr hjlt, stepSel, hcid, hrow]
  · rw [hcb]
    rw [selHighlightLoop_charts prev me x row series (List.range gs.length) gs
      (List.nodup_range _) a]
    rw [ha]
    simp [List.mem_range.mpr halt, stepSel]
  · intro hk hpc
    rw [hcb]
    rw [selHighlightLoop_trace prev me x row series (List.range gs.length) gs
      (List.nodup_range _)]
    refine List.mem_filterMap.mpr ⟨a, List.mem_range.mpr halt, ?_⟩
    rw [ha, hpc]
    simp
  · intro i hk x2 r2 s2 hmem
    rw [hcb] at hmem
    rw [selHighlightLoop_trace prev me x row series (List.range gs.length) gs
      (List.nodup_range _)] at hmem
    obtain ⟨j, -, hev⟩ := List.mem_filterMap.mp hmem
    revert hev
    cases hgj : gs[j]? with
    | none => simp
    | some c =>
      by_cases hcid : (c.id == me.id) = true
      · have hcp : c.id = me.id := by simpa using hcid
        cases hpc : (prev[j]?).bind (fun p => p.highlightCallback) with
        | none => simp [hcp, hpc]
        | some h2 =>
          intro hev
          simp only [Option.some_bind, hcid, if_pos, hpc] at hev
          have hev2 := Option.some.inj hev
          rw [← (Ev.invokePrevHighlight.inj hev2).1, hcp]
      · have hcp : ¬ (c.id = me.id) := by simpa using hcid
        cases hrow : c.getRowForX x <;> simp [hcp, hrow]
  · intro idx s2 hmem
    rw [hcb] at hmem
    rw [selHighlightLoop_trace prev me x row series (List.range gs.length) gs
      (List.nodup_range _)] at hmem
    obtain ⟨j, -, hev⟩ := List.mem_filterMap.mp hmem
    revert hev
    cases hgj : gs[j]? with
    | none => simp
    | some c =>
      by_cases hcid : (c.id == me.id) = true
      · have hcp : c.id = me.id := by simpa using hcid
        cases hpc : (prev[j]?).bind (fun p => p.highlightCallback) <;>
          simp [hcp, hpc]
      · have hcp : ¬ (c.id = me.id) := by simpa using hcid
        cases hrow : c.getRowForX x with
        | none => simp [hcp, hrow]
        | some idx2 =>
          intro hev
          have hcid2 : (c.id == me.id) = false := by rwa [Bool.not_eq_true] at hcid
          simp only [Option.some_bind, hcid2, Bool.false_eq_true, if_false, hrow] at hev
          have hev2 := Option.some.inj hev
          exact hcp ((Ev.setSel.inj hev2).1)

/-- C6 witness: highlight at x = 20 on exA; exB (row 3 at x = 20) gets the
selection, exC (no row at x = 20) is unchanged, and the vaulted highlight
hook of exA is invoked. -/
theorem C6_witness :
    (highlightCb (captureCallbacks [exA, exB, exC]) [exA, exB, exC] false exA
        20 5 "temp").1[1]? = some { exB with selection := some (3, "temp") } ∧
    (highlightCb (captureCallbacks [exA, exB, exC]) [exA, exB, exC] false exA
        20 5 "temp").1[2]? = some exC ∧
    (highlightCb (captureCallbacks [exA, exB, exC]) [exA, exB, exC] false exA
        20 5 "temp").1[0]? = some exA ∧
    Ev.invokePrevHighlight 0 (.user 2) 20 5 "temp" ∈
      (highlightCb (captureCallbacks [exA, exB, exC]) [exA, exB, exC] false exA
        20 5 "temp").2.2 := by
  have h := C6_highlight_propagation (captureCallbacks [exA, exB, exC])
    [exA, exB, exC] exA 0 20 5 "temp" rfl (by decide)
  refine ⟨(h.1 1 exB 3 rfl (by decide) rfl).1, ?_, h.2.2.1, ?_⟩
  · exact h.2.1 2 exC rfl (by decide) rfl
  · exact h.2.2.2.1 (.user 2) rfl

theorem parseOpts_error (d : SyncOpts) (a : JSArg) (h : isObjectLike a = false) :
    parseOpts d a = .error "Last argument must be either Dygraph or Object." := by
  cases a <;> simp_all [parseOpts, isObjectLike]

theorem parseOpts_ok (d : SyncOpts) (a : JSArg) (h : isObjectLike a = true) :
    ∃ o, parseOpts d a = .ok o := by
  cases a <;> simp_all [parseOpts, isObjectLike]

theorem leadingCharts_length_le : ∀ args : List JSArg,
    (leadingCharts args).length ≤ args.length := by
  intro args
  induction args with
  | nil => simp [leadingCharts]
  | cons a as ih =>
    by_cases ha : isChartArg a = true
    · simp only [leadingCharts, ha, if_pos, List.length_cons]
      omega
    · simp only [leadingCharts, ha, Bool.false_eq_true, if_false, List.length_nil,
        List.length_cons]
      omega

theorem any_dropLast_eq (a0 : JSArg) : ∀ rest : List JSArg, isChartArg a0 = true →
    ((a0 :: rest).dropLast.any (fun a => !isChartArg a) =
      decide ((leadingCharts (a0 :: rest)).length < (a0 :: rest).length - 1)) := by
  intro rest
  induction rest generalizing a0 with
  | nil =>
    intro ha0
    simp [leadingCharts, ha0]
  | cons a1 rest ih =>
    intro ha0
    have hdl : (a0 :: a1 :: rest).dropLast = a0 :: (a1 :: rest).dropLast := rfl
    rw [hdl]
    simp only [List.any_cons, ha0, Bool.not_true, Bool.false_or]
    have hlead : leadingCharts (a0 :: a1 :: rest) = a0 :: leadingCharts (a1 :: rest) := by
      simp [leadingCharts, ha0]
    rw [hlead]
    by_cases ha1 : isChartArg a1 = true
    · rw [ih a1 ha1]
      refine decide_eq_decide.mpr ?_
      simp only [List.length_cons]
      omega
    · have ha1f : isChartArg a1 = false := by rwa [Bool.not_eq_true] at ha1
      have hlead2 : leadingCharts (a1 :: rest) = [] := by
        simp [leadingCharts, ha1f]
      rw [hlead2]
      cases rest with
      | nil => simp
      | cons r rs =>
        have hdl2 : (a1 :: r :: rs).dropLast = a1 :: (r :: rs).dropLast := rfl
        rw [hdl2]
        simp only [List.any_cons, ha1f, Bool.not_false, Bool.true_or, List.length_cons,
          List.length_nil]
        have hlt : (0 : Nat) + 1 < rs.length + 1 + 1 + 1 - 1 := by omega
        exact (decide_eq_true hlt).symm

theorem leadingCharts_full (a0 : JSArg) : ∀ rest : List JSArg, isChartArg a0 = true →
    ((a0 :: rest).dropLast.any (fun a => !isChartArg a)) = false →
    (leadingCharts (a0 :: rest)).length =
      (if isChartArg ((a0 :: rest).getLast (List.cons_ne_nil a0 rest)) then
        (a0 :: rest).length
      else (a0 :: rest).length - 1) := by
  intro rest
  induction rest generalizing a0 with
  | nil =>
    intro ha0 _
    simp [leadingCharts, ha0, List.getLast]
  | cons a1 rest ih =>
    intro ha0 hany
    have hdl : (a0 :: a1 :: rest).dropLast = a0 :: (a1 :: rest).dropLast := rfl
    rw [hdl] at hany
    simp only [List.any_cons, ha0, Bool.not_true, Bool.false_or] at hany
    have hlead : leadingCharts (a0 :: a1 :: rest) = a0 :: leadingCharts (a1 :: rest) := by
      simp [leadingCharts, ha0]
    have hgl : (a0 :: a1 :: rest).getLast (List.cons_ne_nil a0 (a1 :: rest)) =
        (a1 :: rest).getLast (List.cons_ne_nil a1 rest) := rfl
    rw [hlead, hgl]
    by_cases ha1 : isChartArg a1 = true
    · rw [List.length_cons, ih a1 ha1 hany]
      by_cases hgc : isChartArg ((a1 :: rest).getLast (List.cons_ne_nil a1 rest)) = true
      · simp only [hgc, if_pos, List.length_cons]
      · simp only [hgc, Bool.false_eq_true, if_false, List.length_cons]
        omega
    · have ha1f : isChartArg a1 = false := by rwa [Bool.not_eq_true] at ha1
      have hrest : rest = [] := by
        cases rest with
        | nil => rfl
        | cons r rs =>
          exfalso
          have hdl2 : (a1 :: r :: rs).dropLast = a1 :: (r :: rs).dropLast := rfl
          rw [hdl2] at hany
          simp [ha1f] at hany
      subst hrest
      have hlead2 : leadingCharts [a1] = [] := by simp [leadingCharts, ha1f]
      rw [hlead2]
      have hgl2 : ([a1] : List JSArg).getLast (List.cons_ne_nil a1 []) = a1 := rfl
      rw [hgl2]
      simp [ha1f]

theorem leadingCharts_subset : ∀ (args : List JSArg) (a : JSArg),
    a ∈ leadingCharts args → a ∈ args := by
  intro args
  induction args with
  | nil => intro a h; simp [leadingCharts] at h
  | cons b args ih =>
    intro a h
    by_cases hb : isChartArg b = true
    · simp only [leadingCharts, hb, if_pos] at h
      rcases List.mem_cons.mp h with h1 | h2
      · rw [h1]; exact List.mem_cons_self b args
      · exact List.mem_cons_of_mem b (ih a h2)
    · have hbf : isChartArg b = false := by rwa [Bool.not_eq_true] at hb
      simp [leadingCharts, hbf] at h

theorem C4_parse_iff : ∀ args : List JSArg,
    parseFailed args = specInvalidArgument args := by
  intro args
  cases args with
  | nil => rfl
  | cons a0 rest =>
    by_cases ha0 : isChartArg a0 = true
    · have hb1 := any_dropLast_eq a0 rest ha0
      have hilen := leadingCharts_length_le (a0 :: rest)
      by_cases hlt : (leadingCharts (a0 :: rest)).length < (a0 :: rest).length - 1
      · have hany : (a0 :: rest).dropLast.any (fun a => !isChartArg a) = true := by
          rw [hb1]; exact decide_eq_true hlt
        have hsp : parseFailed (a0 :: rest) = true := by
          simp only [parseFailed, synchronizeParse, ha0, if_true, if_pos, hlt]
        rw [hsp]
        simp [specInvalidArgument, ha0, hany]
      · have hany : (a0 :: rest).dropLast.any (fun a => !isChartArg a) = false := by
          rw [hb1]; exact decide_eq_false hlt
        have hb2 := leadingCharts_full a0 rest ha0 hany
        by_cases hgc : isChartArg ((a0 :: rest).getLast (List.cons_ne_nil a0 rest)) = true
        · rw [if_pos hgc] at hb2
          have hne : ((leadingCharts (a0 :: rest)).length ==
              (a0 :: rest).length - 1) = false := by
            rw [hb2]
            simp only [List.length_cons, beq_eq_false_iff_ne, ne_eq]
            omega
          have hsp : parseFailed (a0 :: rest) =
              decide ((leadingCharts (a0 :: rest)).length < 2) := by
            simp only [parseFailed, synchronizeParse, ha0, if_true, if_pos, hlt,
              Bool.false_eq_true, if_false, if_neg, hne]
            by_cases hsz : (leadingCharts (a0 :: rest)).length < 2
            · simp [hsz]
            · simp [hsz]
          rw [hsp]
          simp only [specInvalidArgument, ha0, if_true, if_pos, hany, hgc,
            Bool.not_true, Bool.false_and, Bool.false_or, specGroup]
        · have hgcf : isChartArg ((a0 :: rest).getLast (List.cons_ne_nil a0 rest)) = false := by
            rwa [Bool.not_eq_true] at hgc
          rw [if_neg (by simp [hgcf])] at hb2
          have heq : ((leadingCharts (a0 :: rest)).length ==
              (a0 :: rest).length - 1) = true := by
            rw [hb2]
            simp
          by_cases hobj : isObjectLike ((a0 :: rest).getLast (List.cons_ne_nil a0 rest)) = true
          · obtain ⟨o, ho⟩ := parseOpts_ok {} _ hobj
            have hsp : parseFailed (a0 :: rest) =
                decide ((leadingCharts (a0 :: rest)).length < 2) := by
              simp only [parseFailed, synchronizeParse, ha0, if_true, if_pos, hlt,
                Bool.false_eq_true, if_false, if_neg, heq, ho]
              by_cases hsz : (leadingCharts (a0 :: rest)).length < 2
              · simp [hsz]
              · simp [hsz]
            rw [hsp]
            simp only [specInvalidArgument, ha0, if_true, if_pos, hany, hobj,
              Bool.not_true, Bool.and_false, Bool.false_or, specGroup]
          · have hobjf : isObjectLike ((a0 :: rest).getLast (List.cons_ne_nil a0 rest)) = false := by
              rwa [Bool.not_eq_true] at hobj
            have ho := parseOpts_error {} _ hobjf
            have hsp : parseFailed (a0 :: rest) = true := by
              simp only [parseFailed, synchronizeParse, ha0, if_true, if_pos, hlt,
                Bool.false_eq_true, if_false, if_neg, heq, ho]
            rw [hsp]
            simp [specInvalidArgument, ha0, hany, hgcf, hobjf]
    · have ha0f : isChartArg a0 = false := by rwa [Bool.not_eq_true] at ha0
      by_cases hseq : lengthTruthy a0 = true
      · obtain ⟨es, hes⟩ : ∃ es, a0 = .arr es := by
          cases a0 with
          | arr es => exact ⟨es, rfl⟩
          | chart c => simp [isChartArg] at ha0f
          | obj s z r => simp [lengthTruthy] at hseq
          | prim => simp [lengthTruthy] at hseq
        subst hes
        have hspec : specInvalidArgument (JSArg.arr es :: rest) =
            (decide ((JSArg.arr es :: rest).length > 2) ||
              (decide ((JSArg.arr es :: rest).length = 2) &&
                !isObjectLike (rest.getD 0 .prim)) ||
              decide (es.length < 2)) := rfl
        by_cases h2 : ((JSArg.arr es) :: rest).length = 2
        · have h2b : (((JSArg.arr es) :: rest).length == 2) = true := by
            simpa using h2
          have e1 : decide (((JSArg.arr es) :: rest).length > 2) = false :=
            decide_eq_false (by omega)
          have e2 : decide (((JSArg.arr es) :: rest).length = 2) = true :=
            decide_eq_true h2
          by_cases hobj : isObjectLike (rest.getD 0 .prim) = true
          · obtain ⟨o, ho⟩ := parseOpts_ok {} _ hobj
            have hsp : parseFailed ((JSArg.arr es) :: rest) =
                decide (es.length < 2) := by
              simp only [parseFailed, synchronizeParse, ha0f, Bool.false_eq_true,
                if_false, hseq, if_true, if_pos, h2b, ho, seqElems]
              by_cases hsz : es.length < 2
              · simp [hsz]
              · simp [hsz]
            rw [hsp, hspec, e1, e2, hobj]
            simp
          · have hobjf : isObjectLike (rest.getD 0 .prim) = false := by
              rwa [Bool.not_eq_true] at hobj
            have ho := parseOpts_error {} _ hobjf
            have hsp : parseFailed ((JSArg.arr es) :: rest) = true := by
              simp only [parseFailed, synchronizeParse, ha0f, Bool.false_eq_true,
                if_false, hseq, if_true, if_pos, h2b, ho]
            rw [hsp, hspec, e1, e2, hobjf]
            simp
        · have h2b : (((JSArg.arr es) :: rest).length == 2) = false := by
            simpa using h2
          have e2 : decide (((JSArg.arr es) :: rest).length = 2) = false :=
            decide_eq_false h2
          by_cases h3 : ((JSArg.arr es) :: rest).length > 2
          · have e1 : decide (((JSArg.arr es) :: rest).length > 2) = true :=
              decide_eq_true h3
            have hsp : parseFailed ((JSArg.arr es) :: rest) = true := by
              simp only [parseFailed, synchronizeParse, ha0f, Bool.false_eq_true,
                if_false, hseq, if_true, if_pos, h2b, h3]
            rw [hsp, hspec, e1]
            simp
          · have e1 : decide (((JSArg.arr es) :: rest).length > 2) = false :=
              decide_eq_false h3
            have hsp : parseFailed ((JSArg.arr es) :: rest) =
                decide (es.length < 2) := by
              simp only [parseFailed, synchronizeParse, ha0f, Bool.false_eq_true,
                if_false, hseq, if_true, if_pos, h2b, h3, seqElems]
              by_cases hsz : es.length < 2
              · simp [hsz]
              · simp [hsz]
            rw [hsp, hspec, e1, e2]
            simp
      · have hseqf : lengthTruthy a0 = false := by rwa [Bool.not_eq_true] at hseq
        have hsp : parseFailed (a0 :: rest) = true := by
          simp only [parseFailed, synchronizeParse, ha0f, Bool.false_eq_true,
            if_false, hseqf]
        rw [hsp]
        cases a0 with
        | chart c => simp [isChartArg] at ha0f
        | arr es =>
          have hnil : es = [] := by
            by_contra hne
            have : es.length ≠ 0 := fun hh => hne (List.eq_nil_of_length_eq_zero hh)
            simp [lengthTruthy, this] at hseqf
          subst hnil
          simp [specInvalidArgument, isChartArg, isSeqLikeArg, specGroup, seqElems]
        | obj s z r => simp [specInvalidArgument, isChartArg, isSeqLikeArg]
        | prim => simp [specInvalidArgument, isChartArg, isSeqLikeArg]

theorem synchronizeParse_ok_group (args : List JSArg) (gsArgs : List JSArg)
    (opts : SyncOpts) (h : synchronizeParse args = .ok (gsArgs, opts)) :
    gsArgs = specGroup args := by
  cases args with
  | nil => simp [synchronizeParse] at h
  | cons a0 rest =>
    simp only [synchronizeParse] at h
    split at h
    · exact absurd h (by simp)
    · rename_i r d o heq
      split at h
      · exact absurd h (by simp)
      · obtain ⟨hd, -⟩ := Prod.mk.inj (Except.ok.inj h)
        subst hd
        split at heq
        · rename_i hchart
          split at heq
          · exact absurd heq (by simp)
          · split at heq
            · split at heq
              · exact absurd heq (by simp)
              · obtain ⟨hg, -⟩ := Prod.mk.inj (Except.ok.inj heq)
                rw [← hg]
                simp [specGroup, hchart]
            · obtain ⟨hg, -⟩ := Prod.mk.inj (Except.ok.inj heq)
              rw [← hg]
              simp [specGroup, hchart]
        · rename_i hchart
          split at heq
          · split at heq
            · split at heq
              · exact absurd heq (by simp)
              · obtain ⟨hg, -⟩ := Prod.mk.inj (Except.ok.inj heq)
                rw [← hg]
                simp only [specGroup]
                rw [if_neg (by simpa using hchart)]
            · split at heq
              · exact absurd heq (by simp)
              · obtain ⟨hg, -⟩ := Prod.mk.inj (Except.ok.inj heq)
                rw [← hg]
                simp only [specGroup]
                rw [if_neg (by simpa using hchart)]
          · exact absurd heq (by simp)

/-- C4, confirmed.  The factory raises InvalidArgument exactly under the
construction-time conditions of section 4.1 (formalized from the spec as
specInvalidArgument), and a raising call produces no handle at all; even a
successful call creates the handle with an empty snapshot table — callbacks
are read and replaced only at activation, after the readiness barrier — and
the group of a successful call holds exactly chart values passed by the
caller, unmodified. -/
theorem C4_invalid_argument (args : List JSArg) :
    parseFailed args = specInvalidArgument args ∧
    (factoryState args).isSome = !specInvalidArgument args ∧
    (∀ st : SyncState, factoryState args = some st →
      st.prevCallbacks = [] ∧
      ∀ c ∈ st.dygraphs, JSArg.chart c ∈ args ∨
        ∃ es, args[0]? = some (.arr es) ∧ JSArg.chart c ∈ es) := by
  refine ⟨C4_parse_iff args, ?_, ?_⟩
  · rw [← C4_parse_iff args]
    cases hsp : synchronizeParse args <;> simp [factoryState, parseFailed, hsp]
  · intro st hst
    cases hsp : synchronizeParse args with
    | error e => simp [factoryState, hsp] at hst
    | ok p =>
      obtain ⟨gsArgs, opts⟩ := p
      simp only [factoryState, hsp] at hst
      obtain rfl : st =
          { dygraphs := gsArgs.filterMap asChart, opts := opts,
            prevCallbacks := [] } := (Option.some.inj hst).symm
      refine ⟨rfl, ?_⟩
      intro c hc
      obtain ⟨a, ha, hac⟩ := List.mem_filterMap.mp hc
      have hach : a = JSArg.chart c := by
        cases a with
        | chart c2 =>
          simp only [asChart, Option.some.injEq] at hac
          rw [hac]
        | arr es => simp [asChart] at hac
        | obj s z r => simp [asChart] at hac
        | prim => simp [asChart] at hac
      rw [synchronizeParse_ok_group args gsArgs opts hsp] at ha
      cases args with
      | nil => simp [specGroup] at ha
      | cons a0 rest =>
        by_cases hc0 : isChartArg a0 = true
        · left
          rw [← hach]
          apply leadingCharts_subset
          simpa [specGroup, hc0] using ha
        · cases a0 with
          | chart c2 => simp [isChartArg] at hc0
          | arr es =>
            right
            refine ⟨es, by simp, ?_⟩
            rw [← hach]
            simpa [specGroup, isChartArg, seqElems] using ha
          | obj s z r => simp [specGroup, isChartArg, seqElems] at ha
          | prim => simp [specGroup, isChartArg, seqElems] at ha

/-- C4 witness: the failing single-primitive call agrees with the predicate
and produces no handle; the successful two-chart call yields a handle with
an empty snapshot whose group is exactly the two passed charts. -/
theorem C4_witness :
    parseFailed [JSArg.prim] = specInvalidArgument [JSArg.prim] ∧
    specInvalidArgument [JSArg.prim] = true ∧
    factoryState [JSArg.prim] = none ∧
    ((factoryState [JSArg.chart exA, JSArg.chart exB]).isSome =
      !specInvalidArgument [JSArg.chart exA, JSArg.chart exB]) ∧
    ((SyncState.mk [exA, exB] ({} : SyncOpts) []).prevCallbacks = [] ∧
      ∀ c ∈ (SyncState.mk [exA, exB] ({} : SyncOpts) []).dygraphs,
        JSArg.chart c ∈ [JSArg.chart exA, JSArg.chart exB] ∨
        ∃ es, ([JSArg.chart exA, JSArg.chart exB] : List JSArg)[0]? =
            some (.arr es) ∧ JSArg.chart c ∈ es) := by
  refine ⟨(C4_invalid_argument [JSArg.prim]).1, rfl, ?_, ?_, ?_⟩
  · have h := (C4_invalid_argument [JSArg.prim]).2.1
    cases hf : factoryState [JSArg.prim] with
    | none => rfl
    | some st =>
      rw [hf, show specInvalidArgument [JSArg.prim] = true from rfl] at h
      simp at h
  · exact (C4_invalid_argument [JSArg.chart exA, JSArg.chart exB]).2.1
  · exact (C4_invalid_argument [JSArg.chart exA, JSArg.chart exB]).2.2 _ rfl

end DySync
